import Mathlib

/-!
Verification development for the inbox-digest email-processing pipeline
(content extraction, boilerplate filtering, snippet sampling, link
classification and the relevance-filter orchestrator).

The JavaScript sources are shallowly embedded:

* strings are Lean `String`s manipulated through their `List Char` data;
* the JavaScript regular expressions used by the pipeline are embedded via a
  small executable matcher (`Rx`, `mrun`) that follows the JS engine's
  semantics: leftmost match, preference-ordered backtracking (left
  alternative first, greedy quantifiers), ASCII word boundaries, and
  `String.prototype.replace` with the `g` flag;
* asynchronous / external effects (the DOM parser in the offscreen document,
  the network call to the completion oracle) are passed in as explicit
  outcome parameters (`Except`), so a thrown error is an `.error` value;
* fallible code returns plain values because every modelled function is
  total in the source (all its error paths are caught locally).
-/

namespace InboxDigest

/-! ## Characters

`isWsChar` models the JavaScript `\s` character class (whitespace used by
`split(/\s+/)`, `replace(/\s+/g, ' ')` and `String.prototype.trim`).
`isWordChar` models `\w` (ASCII letters, digits, underscore), which also
determines `\b` word boundaries. -/

def isWsChar (c : Char) : Bool :=
  let n := c.toNat
  n = 0x20 || n = 0x09 || n = 0x0A || n = 0x0D || n = 0x0B || n = 0x0C ||
  n = 0xA0 || n = 0x1680 || (0x2000 ≤ n && n ≤ 0x200A) || n = 0x2028 ||
  n = 0x2029 || n = 0x202F || n = 0x205F || n = 0x3000 || n = 0xFEFF

def isWordChar (c : Char) : Bool :=
  let n := c.toNat
  (0x61 ≤ n && n ≤ 0x7A) || (0x41 ≤ n && n ≤ 0x5A) || (0x30 ≤ n && n ≤ 0x39) || n = 0x5F

/-! ## String helpers (JS semantics, on `List Char`) -/

/-- JavaScript `String.prototype.trim`: drop whitespace from both ends. -/
def trimL (s : List Char) : List Char :=
  ((s.dropWhile isWsChar).reverse.dropWhile isWsChar).reverse

def trimJs (s : String) : String :=
  String.mk (trimL s.data)

/-- Worker for `collapseL`; the flag records whether the previous
character was part of a whitespace run already replaced. -/
def collapseGo : Bool → List Char → List Char
  | _, [] => []
  | inRun, c :: rest =>
    if isWsChar c then
      if inRun then collapseGo true rest
      else ' ' :: collapseGo true rest
    else c :: collapseGo false rest

/-- JavaScript `s.replace(/\s+/g, ' ')`: every maximal whitespace run
becomes a single space (the regex `\s+` is greedy, so each match is a
maximal run). -/
def collapseL (s : List Char) : List Char :=
  collapseGo false s

def collapseWs (s : String) : String :=
  String.mk (collapseL s.data)

/-- JavaScript `Array.prototype.join(' ')`. -/
def joinSp : List (List Char) → List Char
  | [] => []
  | [w] => w
  | w :: rest => w ++ ' ' :: joinSp rest

def sjoin (ws : List String) : String :=
  String.mk (joinSp (ws.map String.data))

/-- Worker for `tokensOf`: `cur` accumulates the current run reversed. -/
def tokensAux (cur : List Char) : List Char → List (List Char)
  | [] => if cur.isEmpty then [] else [cur.reverse]
  | c :: rest =>
    if isWsChar c then
      if cur.isEmpty then tokensAux [] rest
      else cur.reverse :: tokensAux [] rest
    else tokensAux (c :: cur) rest

/-- Maximal non-whitespace runs of a character list, in order. -/
def tokensOf (s : List Char) : List (List Char) :=
  tokensAux [] s

/-- JavaScript `s.split(/\s+/)`: the pieces between whitespace runs, which
includes an empty leading (resp. trailing) piece when the string starts
(resp. ends) with whitespace, and `[""] `for the empty string. -/
def splitWsJs (s : String) : List String :=
  match s.data with
  | [] => [""]
  | c :: rest =>
    (if isWsChar c then [""] else []) ++
    (tokensOf s.data).map String.mk ++
    (if isWsChar ((c :: rest).getLastD ' ') then [""] else [])

/-- JavaScript `String.prototype.toLowerCase` (ASCII-relevant part). -/
def toLowerJs (s : String) : String :=
  String.mk (s.data.map Char.toLower)

/-- JavaScript `String.prototype.toUpperCase` (ASCII-relevant part). -/
def toUpperJs (s : String) : String :=
  String.mk (s.data.map Char.toUpper)

/-- JavaScript `a.startsWith(b)`. -/
def startsWithJs (s pre : String) : Bool :=
  pre.data.isPrefixOf s.data

/-- Substring test on character lists. -/
def containsSubL (sub : List Char) : List Char → Bool
  | [] => sub.isEmpty
  | s@(_ :: rest) => sub.isPrefixOf s || containsSubL sub rest

/-- JavaScript `a.includes(b)` (substring test). -/
def includesJs (s sub : String) : Bool :=
  containsSubL sub.data s.data

/-! ## A JS-flavoured regular-expression matcher

`Rx` covers exactly the constructs appearing in the repository's patterns:
character classes, concatenation, ordered alternation, greedy `?`, greedy
`+` (with `*` encoded as `(x+)?`), fixed repetition written out, and the
word-boundary assertion `\b`.  The matcher `mrun` is written in
continuation-passing style; trying the continuations in the order a
backtracking JS engine would try them and stopping at the first success
reproduces the JS match (leftmost alternative preferred, quantifiers
greedy).  `prev` carries the character immediately before the current
position so `\b` can be decided.  `fuel` only forces termination; it is
always instantiated generously enough (see `rxFuel`). -/

inductive Rx : Type where
  | eps : Rx
  | cls : (Char → Bool) → Rx
  | seq : Rx → Rx → Rx
  | alt : Rx → Rx → Rx
  | opt : Rx → Rx
  | plus : Rx → Rx
  | bnd : Rx

def rxSize : Rx → Nat
  | .eps => 1
  | .cls _ => 1
  | .seq a b => rxSize a + rxSize b + 1
  | .alt a b => rxSize a + rxSize b + 1
  | .opt a => rxSize a + 1
  | .plus a => rxSize a + 1
  | .bnd => 1

def atBoundary (prev : Option Char) (s : List Char) : Bool :=
  let a := match prev with
    | some c => isWordChar c
    | none => false
  let b := match s with
    | c :: _ => isWordChar c
    | [] => false
  a != b

def mrun (fuel : Nat) (r : Rx) (prev : Option Char) (s : List Char)
    (k : Option Char → List Char → Option (Option Char × List Char)) :
    Option (Option Char × List Char) :=
  match fuel with
  | 0 => none
  | fuel + 1 =>
    match r with
    | .eps => k prev s
    | .cls p =>
      match s with
      | [] => none
      | c :: rest => if p c then k (some c) rest else none
    | .seq a b => mrun fuel a prev s (fun p2 s2 => mrun fuel b p2 s2 k)
    | .alt a b =>
      match mrun fuel a prev s k with
      | some res => some res
      | none => mrun fuel b prev s k
    | .opt a =>
      match mrun fuel a prev s k with
      | some res => some res
      | none => k prev s
    | .plus a =>
      mrun fuel a prev s (fun p2 s2 =>
        if s2.length < s.length then
          match mrun fuel (.plus a) p2 s2 k with
          | some res => some res
          | none => k p2 s2
        else k p2 s2)
    | .bnd => if atBoundary prev s then k prev s else none

def rxFuel (r : Rx) (n : Nat) : Nat :=
  (rxSize r + 2) * (n + 2) + 2

/-- Attempt a match of `r` at the current position (JS preference order);
on success return the last consumed character and the rest of the input.
With `reqEnd` the match must also reach the end of the string (a trailing
`$` anchor). -/
def matchHere (r : Rx) (reqEnd : Bool) (prev : Option Char) (s : List Char) :
    Option (Option Char × List Char) :=
  mrun (rxFuel r s.length) r prev s (fun p2 s2 =>
    if reqEnd && !s2.isEmpty then none else some (p2, s2))

/-- Scan left to right for a position where `r` matches. -/
def searchFrom (r : Rx) (reqEnd : Bool) : Option Char → List Char → Bool
  | prev, [] => (matchHere r reqEnd prev []).isSome
  | prev, c :: rest =>
    (matchHere r reqEnd prev (c :: rest)).isSome || searchFrom r reqEnd (some c) rest

/-- An embedded JS regex: a body plus the `^` / `$` anchor flags.  All the
repository's patterns carry the `i` flag, which the character classes
themselves implement (they compare lower-cased characters). -/
structure JsPattern where
  body : Rx
  aStart : Bool
  aEnd : Bool

/-- JavaScript `pattern.test(s)`. -/
def JsPattern.test (p : JsPattern) (s : String) : Bool :=
  if p.aStart then (matchHere p.body p.aEnd none s.data).isSome
  else searchFrom p.body p.aEnd none s.data

/-- Global replacement (`s.replace(pattern, repl)` with the `g` flag):
scan left to right, at each position take the engine's preferred match,
emit the replacement and continue after the match (advancing one extra
character after an empty match, as JS does with its `lastIndex` bump).
Each step consumes at least one character, so `fuel = s.length + 1`
always suffices; exhausted fuel returns the remaining input. -/
def replaceGo (r : Rx) (reqEnd : Bool) (repl : List Char) :
    Nat → Option Char → List Char → List Char
  | 0, _, s => s
  | fuel + 1, prev, s =>
    match matchHere r reqEnd prev s with
    | some (p2, rest) =>
      if rest.length < s.length then
        repl ++ replaceGo r reqEnd repl fuel p2 rest
      else
        match s with
        | [] => repl
        | c :: rest2 => repl ++ c :: replaceGo r reqEnd repl fuel (some c) rest2
    | none =>
      match s with
      | [] => []
      | c :: rest => c :: replaceGo r reqEnd repl fuel (some c) rest

def JsPattern.replace (p : JsPattern) (repl : String) (s : String) : String :=
  String.mk (replaceGo p.body p.aEnd repl.data (s.data.length + 1) none s.data)

/-! ### Pattern-building helpers -/

/-- Case-insensitive literal character (the `i` flag). -/
def lchar (c : Char) : Rx :=
  .cls (fun d => d.toLower == c.toLower)

def lit (w : String) : Rx :=
  w.data.foldr (fun c r => .seq (lchar c) r) .eps

def cat (l : List Rx) : Rx :=
  l.foldr .seq .eps

def alts : List Rx → Rx
  | [] => .cls (fun _ => false)
  | [r] => r
  | r :: rest => .alt r (alts rest)

/-- The regex `\s` / `\s+`. -/
def ws1 : Rx := .cls isWsChar

def wsP : Rx := .plus ws1

/-- The regex `\s*`, encoded as `(\s+)?` (same greedy semantics). -/
def wsS : Rx := .opt wsP

/-- The regex `\w` and `\d`. -/
def wd : Rx := .cls isWordChar

def dg : Rx := .cls Char.isDigit

/-- Splitting a phrase string on single spaces (used to build patterns). -/
def splitSpAux (cur : List Char) : List Char → List (List Char)
  | [] => [cur.reverse]
  | c :: rest =>
    if c = ' ' then cur.reverse :: splitSpAux [] rest
    else splitSpAux (c :: cur) rest

/-- Words separated by `\s+` (how multi-word phrases appear in the
pattern banks, e.g. `privacy\s+policy`). -/
def wordsSeq : List (List Char) → Rx
  | [] => .eps
  | [w] => w.foldr (fun c r => .seq (lchar c) r) .eps
  | w :: rest => cat [w.foldr (fun c r => .seq (lchar c) r) .eps, wsP, wordsSeq rest]

def ph (s : String) : Rx :=
  wordsSeq (splitSpAux [] s.data)

def phAlts (l : List String) : Rx :=
  alts (l.map ph)

def litAlts (l : List String) : Rx :=
  alts (l.map lit)

/-- A pattern `\b ... \b` without anchors (the common shape in the banks). -/
def bpat (r : Rx) : JsPattern :=
  ⟨cat [.bnd, r, .bnd], false, false⟩

/-- A pattern `\b ...` (no trailing boundary). -/
def bpatL (r : Rx) : JsPattern :=
  ⟨.seq .bnd r, false, false⟩

/-- The apostrophe character (U+0027), used inside phrases. -/
def apoc : Char := Char.ofNat 39

def apos : String := String.mk [apoc]

/-- An optional word followed by whitespace: the regex `(word\s+)?`. -/
def optw (s : String) : Rx :=
  .opt (cat [lit s, wsP])

/-- An optional multi-word group followed by whitespace: `(a\s+b\s+)?`. -/
def optp (s : String) : Rx :=
  .opt (cat [ph s, wsP])

/-! ## BoilerplateFilter (utils.js 414-512)

`BOILERPLATE_PATTERNS` transcribes the regex bank, in order; each entry is
annotated with the original pattern (all carry the `gi` flags). -/

def BOILERPLATE_PATTERNS : List JsPattern := [
  -- \b(click|tap)\s+(here\s+)?to\s+(unsubscribe|subscribe|view|read|continue|download|access|sign\s+up|log\s+in|update)\b
  bpat (cat [litAlts ["click", "tap"], wsP, optw "here", lit "to", wsP,
    alts [lit "unsubscribe", lit "subscribe", lit "view", lit "read", lit "continue",
      lit "download", lit "access", ph "sign up", ph "log in", lit "update"]]),
  -- \bunsubscribe\s+(here|from|link|at|instantly|now)\b
  bpat (cat [lit "unsubscribe", wsP, litAlts ["here", "from", "link", "at", "instantly", "now"]]),
  -- \bview\s+(this\s+)?(email\s+)?(in\s+)?(your\s+)?browser\b
  bpat (cat [lit "view", wsP, optw "this", optw "email", optw "in", optw "your", lit "browser"]),
  -- \bif\s+you\s+(can’t|cannot)\s+(see|view|read)\s+this\s+email
  bpatL (cat [ph "if you", wsP, alts [cat [lit "can", lchar apoc, lit "t"], lit "cannot"], wsP,
    litAlts ["see", "view", "read"], wsP, ph "this email"]),
  -- \bhaving\s+trouble\s+(viewing|reading)\s+this\s+email
  bpatL (cat [ph "having trouble", wsP, litAlts ["viewing", "reading"], wsP, ph "this email"]),
  -- \b(privacy\s+policy|terms\s+(of\s+)?(service|use)|cookie\s+policy|data\s+protection)\b
  bpat (alts [ph "privacy policy",
    cat [lit "terms", wsP, optw "of", litAlts ["service", "use"]],
    ph "cookie policy", ph "data protection"]),
  -- \breview\s+our\s+(privacy|terms|policy)
  bpatL (cat [ph "review our", wsP, litAlts ["privacy", "terms", "policy"]]),
  -- \bthis\s+email\s+was\s+sent\s+to\b
  bpat (ph "this email was sent to"),
  -- \byou\s+(are\s+)?receiving\s+this\s+(email\s+)?because\b
  bpat (cat [lit "you", wsP, optw "are", lit "receiving", wsP, lit "this", wsP,
    optw "email", lit "because"]),
  -- \bto\s+ensure\s+delivery\s+to\s+your\s+inbox
  bpatL (ph "to ensure delivery to your inbox"),
  -- \b(follow|like|share)\s+us\s+on\s+(facebook|twitter|linkedin|instagram|youtube)\b
  bpat (cat [litAlts ["follow", "like", "share"], wsP, ph "us on", wsP,
    litAlts ["facebook", "twitter", "linkedin", "instagram", "youtube"]]),
  -- \bconnect\s+with\s+us\s+on\s+social\s+media\b
  bpat (ph "connect with us on social media"),
  -- \bshare\s+this\s+(email|newsletter|article)\b
  bpat (cat [ph "share this", wsP, litAlts ["email", "newsletter", "article"]]),
  -- \bif\s+you\s+(prefer|want)\s+to\s+receive\s+(html|text)\s+emails
  bpatL (cat [ph "if you", wsP, litAlts ["prefer", "want"], wsP, ph "to receive", wsP,
    litAlts ["html", "text"], wsP, lit "emails"]),
  -- \badd\s+(us\s+)?to\s+your\s+(address\s+book|contacts|safe\s+senders)
  bpatL (cat [lit "add", wsP, optw "us", ph "to your", wsP,
    alts [ph "address book", lit "contacts", ph "safe senders"]]),
  -- \bto\s+ensure\s+you\s+continue\s+to\s+receive\s+our\s+emails
  bpatL (ph "to ensure you continue to receive our emails"),
  -- \bthis\s+is\s+an\s+automated\s+(email|message|notification)
  bpatL (cat [ph "this is an automated", wsP, litAlts ["email", "message", "notification"]]),
  -- \bdo\s+not\s+reply\s+to\s+this\s+email
  bpatL (ph "do not reply to this email"),
  -- \bnoreply@
  bpatL (lit "noreply@"),
  -- \b(click|tap|visit|go\s+to|check\s+out|learn\s+more|read\s+more|see\s+more|find\s+out|discover)\s+(here|now|today)\b
  bpat (cat [alts [lit "click", lit "tap", lit "visit", ph "go to", ph "check out",
      ph "learn more", ph "read more", ph "see more", ph "find out", lit "discover"],
    wsP, litAlts ["here", "now", "today"]]),
  -- \b(get\s+)?(started|access|your|the)\s+(free|now|today|here)\b
  bpat (cat [optw "get", litAlts ["started", "access", "your", "the"], wsP,
    litAlts ["free", "now", "today", "here"]]),
  -- \bcopyright\s+\d{4}
  bpatL (cat [lit "copyright", wsP, dg, dg, dg, dg]),
  -- \ball\s+rights\s+reserved
  bpatL (ph "all rights reserved"),
  -- \bthis\s+email\s+is\s+(confidential|proprietary)
  bpatL (cat [ph "this email is", wsP, litAlts ["confidential", "proprietary"]]),
  -- \bif\s+you\s+received\s+this\s+email\s+in\s+error
  bpatL (ph "if you received this email in error"),
  -- \bforwarded\s+by\s+a\s+friend
  bpatL (ph "forwarded by a friend"),
  -- \bwas\s+this\s+email\s+forwarded\s+to\s+you
  bpatL (ph "was this email forwarded to you"),
  -- \bsubscribe\s+to\s+(get|receive)\s+(more|our|this)
  bpatL (cat [ph "subscribe to", wsP, litAlts ["get", "receive"], wsP,
    litAlts ["more", "our", "this"]]),
  -- \bemail\s+preferences\s+(center|page)
  bpatL (cat [ph "email preferences", wsP, litAlts ["center", "page"]]),
  -- \byou\s+received\s+this\s+newsletter\s+from\s+someone\s+else,?\s*subscribe\s+here
  bpatL (cat [ph "you received this newsletter from someone else",
    .opt (lchar ','), wsS, ph "subscribe here"]),
  -- \bforwarded\s+this\s+email\?\s*subscribe\s+here\s+(for\s+more)?
  bpatL (cat [ph "forwarded this email", lchar '?', wsS, ph "subscribe here", wsP,
    .opt (ph "for more")]),
  -- \bone\s+(of\s+)?the\s+benefits?\s+(of\s+)?subscribing\s+(to\s+)?(the\s+)?[\w\s]+
  bpatL (cat [lit "one", wsP, optw "of", lit "the", wsP, lit "benefit", .opt (lchar 's'),
    wsP, optw "of", lit "subscribing", wsP, optw "to", optw "the",
    .plus (.cls (fun c => isWordChar c || isWsChar c))]),
  -- \bif\s+you\s+received\s+this\s+(email\s+)?from\s+(a\s+friend|someone)
  bpatL (cat [ph "if you received this", wsP, optw "email", lit "from", wsP,
    alts [ph "a friend", lit "someone"]]),
  -- \bsubscribe\s+(here|now)\s+(for\s+)?(more|to\s+get|to\s+receive)
  bpatL (cat [lit "subscribe", wsP, litAlts ["here", "now"], wsP, optw "for",
    alts [lit "more", ph "to get", ph "to receive"]]),
  -- \bget\s+this\s+newsletter\s+(delivered\s+)?(directly\s+)?to\s+your\s+inbox
  bpatL (cat [ph "get this newsletter", wsP, optw "delivered", optw "directly",
    ph "to your inbox"]),
  -- \bwant\s+to\s+(receive|get)\s+this\s+newsletter
  bpatL (cat [ph "want to", wsP, litAlts ["receive", "get"], wsP, ph "this newsletter"]),
  -- \bsubscribe\s+to\s+(our\s+)?(free\s+)?newsletter
  bpatL (cat [ph "subscribe to", wsP, optw "our", optw "free", lit "newsletter"]),
  -- \bjoin\s+(our\s+)?\d+[k+]?\s+(subscribers?|readers?)
  bpatL (cat [lit "join", wsP, optw "our", .plus dg,
    .opt (.cls (fun c => c.toLower == 'k' || c == '+')), wsP,
    alts [cat [lit "subscriber", .opt (lchar 's')], cat [lit "reader", .opt (lchar 's')]]]),
  -- \bbecome\s+a\s+(free\s+)?(subscriber|member)
  bpatL (cat [ph "become a", wsP, optw "free", litAlts ["subscriber", "member"]]),
  -- \bsign\s+up\s+(for\s+)?(our\s+)?(free\s+)?newsletter
  bpatL (cat [ph "sign up", wsP, optw "for", optw "our", optw "free", lit "newsletter"])
]

/-- Standalone phrases removed case-insensitively as whole words, in order
(utils.js 490-501); each becomes the regex `\b<phrase>\b` with the `gi`
flags, the spaces inside a phrase staying literal single spaces. -/
def standalonePhrases : List String := [
  "click here", "tap here", "learn more", "read more", "see more",
  "get started", "sign up", "log in", "download now", "access now",
  "view online", "view in browser", "unsubscribe", "privacy policy",
  "terms of service", "follow us", "share this", "forward to a friend",
  "add to contacts", "safe senders", "whitelist", "manage preferences",
  "email preferences", "subscription center", "update profile",
  "copyright", "all rights reserved", "confidential", "proprietary",
  "subscribe here", "forwarded this email", "benefits of subscribing",
  "received this newsletter", "from someone else", "subscribe now",
  "subscribe today", "get this newsletter", "join our newsletter"
]

def standalonePatterns : List JsPattern :=
  standalonePhrases.map (fun p => bpat (lit p))

/-- Transcription of `removeBoilerplateText` (utils.js 479-512): the empty
string returns early (JS falsiness), each regex of the bank then each
standalone-phrase regex is replaced globally by a single space, and the
result is whitespace-collapsed and trimmed. -/
def removeBoilerplateText (text : String) : String :=
  if text = "" then ""
  else
    let c1 := BOILERPLATE_PATTERNS.foldl (fun acc p => p.replace " " acc) text
    let c2 := standalonePatterns.foldl (fun acc p => p.replace " " acc) c1
    trimJs (collapseWs c2)

/-! ## LinkRelevanceClassifier (utils.js 569-716) -/

/-- A link as produced by `extractLinksFromHtml` and consumed by
`filterRelevantLinks`: anchor text, the raw `href` attribute, and the
resolved absolute URL. -/
structure PageLink where
  text : String
  href : String
  url : String
deriving DecidableEq, Repr

/-- Patterns for irrelevant link text (utils.js 598-622), in order; each
is annotated with the original regex (all carry the `i` flag). -/
def irrelevantPatterns : List JsPattern := [
  -- ^(click|tap|view|see|get|download|access|sign|log|subscribe|unsubscribe|manage|update|share|follow|like|join)\s
  ⟨cat [litAlts ["click", "tap", "view", "see", "get", "download", "access", "sign", "log",
    "subscribe", "unsubscribe", "manage", "update", "share", "follow", "like", "join"], ws1],
    true, false⟩,
  -- ^(here|now|today|all|full|complete|entire|details|info|information)\s*$
  ⟨cat [litAlts ["here", "now", "today", "all", "full", "complete", "entire", "details",
    "info", "information"], wsS], true, true⟩,
  -- ^(privacy|terms|policy|legal|copyright|contact|about|help|support|faq)$
  ⟨litAlts ["privacy", "terms", "policy", "legal", "copyright", "contact", "about",
    "help", "support", "faq"], true, true⟩,
  -- \b(preferences|settings|profile|account|subscription|newsletter|email)\b
  bpat (litAlts ["preferences", "settings", "profile", "account", "subscription",
    "newsletter", "email"]),
  -- ^(facebook|twitter|linkedin|instagram|youtube|social)$
  ⟨litAlts ["facebook", "twitter", "linkedin", "instagram", "youtube", "social"],
    true, true⟩,
  -- ^(forward|share|send|tell|invite)\b
  ⟨cat [litAlts ["forward", "share", "send", "tell", "invite"], .bnd], true, false⟩,
  -- \b(advertisement|ad|promo|promotion|offer|deal|sale|discount)\b
  bpat (litAlts ["advertisement", "ad", "promo", "promotion", "offer", "deal", "sale",
    "discount"]),
  -- ^(©|®|™|\d{4}|\w+@\w+)
  ⟨alts [lit "©", lit "®", lit "™", cat [dg, dg, dg, dg],
    cat [.plus wd, lchar '@', .plus wd]], true, false⟩,
  -- \b(channel|playlist|stream|streaming|listen|watch|download|install|try|free trial|get started|sign up|join)\b
  bpat (litAlts ["channel", "playlist", "stream", "streaming", "listen", "watch",
    "download", "install", "try", "free trial", "get started", "sign up", "join"]),
  -- \b(app store|play store|download now|available now|get it|try it|use it|do it here)\b
  bpat (litAlts ["app store", "play store", "download now", "available now", "get it",
    "try it", "use it", "do it here"]),
  -- ^(youtube channel|spotify|apple music|netflix|amazon prime|disney\+|hulu|twitch stream|instagram page|facebook page|twitter account|linkedin profile)$
  ⟨litAlts ["youtube channel", "spotify", "apple music", "netflix", "amazon prime",
    "disney+", "hulu", "twitch stream", "instagram page", "facebook page",
    "twitter account", "linkedin profile"], true, true⟩,
  -- \b(follow us|like us|subscribe to|join our|visit our|check out our)\b
  bpat (litAlts ["follow us", "like us", "subscribe to", "join our", "visit our",
    "check out our"]),
  -- \b(i liked it|i didn’t like it|i like it|i don’t like it|liked it|didn’t like it|like this|don’t like|thumbs up|thumbs down)\b
  bpat (litAlts ["i liked it", "i didn" ++ apos ++ "t like it", "i like it",
    "i don" ++ apos ++ "t like it", "liked it", "didn" ++ apos ++ "t like it",
    "like this", "don" ++ apos ++ "t like", "thumbs up", "thumbs down"]),
  -- \b(rate this|rating|feedback|survey|poll|vote|comment|reply|respond|review this|tell us|let us know)\b
  bpat (litAlts ["rate this", "rating", "feedback", "survey", "poll", "vote", "comment",
    "reply", "respond", "review this", "tell us", "let us know"]),
  -- \b(yes|no|maybe|agree|disagree|👍|👎|😊|😢|⭐|★|💯|🔥|❤️|💖|👏|🙌)\b
  bpat (litAlts ["yes", "no", "maybe", "agree", "disagree", "👍", "👎", "😊", "😢",
    "⭐", "★", "💯", "🔥", "❤️", "💖", "👏", "🙌"]),
  -- ^(good|bad|great|terrible|awesome|amazing|love|hate|meh|okay|ok)$
  ⟨litAlts ["good", "bad", "great", "terrible", "awesome", "amazing", "love", "hate",
    "meh", "okay", "ok"], true, true⟩,
  -- \b(track your referrals|referral|advertise|advertisement|sponsor|sponsored|jobs|careers|hiring|resume)\b
  bpat (litAlts ["track your referrals", "referral", "advertise", "advertisement",
    "sponsor", "sponsored", "jobs", "careers", "hiring", "resume"]),
  -- \b(if your company is interested|reaching an audience|decision makers|send a friend|job posting|career opportunity)\b
  bpat (litAlts ["if your company is interested", "reaching an audience",
    "decision makers", "send a friend", "job posting", "career opportunity"]),
  -- \b(unsubscribe|manage preferences|email preferences|subscription|newsletter settings|privacy policy|terms of service)\b
  bpat (litAlts ["unsubscribe", "manage preferences", "email preferences", "subscription",
    "newsletter settings", "privacy policy", "terms of service"]),
  -- \b(contact us|about us|our team|our company|our mission|support|help center|customer service)\b
  bpat (litAlts ["contact us", "about us", "our team", "our company", "our mission",
    "support", "help center", "customer service"])
]

/-- Patterns for relevant link text (utils.js 625-632), in order, each
annotated with the original regex (`i` flag). -/
def relevantIndicators : List JsPattern := [
  -- \b(article|report|study|research|analysis|survey|whitepaper|guide|tutorial|course|webinar|podcast|video|interview|news|announcement|launch|release|update|review|opinion|blog|post)\b
  bpat (litAlts ["article", "report", "study", "research", "analysis", "survey",
    "whitepaper", "guide", "tutorial", "course", "webinar", "podcast", "video",
    "interview", "news", "announcement", "launch", "release", "update", "review",
    "opinion", "blog", "post"]),
  -- \b(startup|company|funding|investment|venture|capital|IPO|acquisition|merger|partnership|collaboration|Meta|Google|Apple|Microsoft|Amazon|OpenAI|Anthropic|Tesla|Netflix|Uber|Airbnb|Cursor|Figma|Perplexity|GitHub|GitLab|Notion|Slack|Discord|Zoom|Salesforce|Adobe|Nvidia|Intel|AMD|Qualcomm|SpaceX|Stripe|PayPal|Square|Shopify|Atlassian|Dropbox|Box|Cloudflare|Vercel|MongoDB|Redis|Docker|Kubernetes|AWS|Azure|GCP|Snowflake|Databricks|Palantir|Unity|Epic|Roblox|TikTok|Twitter|X|LinkedIn|Instagram|WhatsApp|Telegram|Signal|Spotify|YouTube|Twitch|Reddit|Pinterest|Snapchat|ByteDance|Tencent|Alibaba|Baidu|Samsung|Sony|LG|Huawei|Xiaomi|OnePlus|Coinbase|Binance|Robinhood|Plaid|Affirm|Klarna|DoorDash|Instacart|Lyft|Waymo|Cruise|Rivian|Lucid|NIO|BYD|Canva|Miro|Linear|Airtable|Zapier|Mailchimp|HubSpot|Zendesk|Intercom|Twilio|SendGrid|Okta|Auth0|Supabase|Firebase|PlanetScale|Hasura|Prisma|Next\.js|React|Vue|Angular|Svelte|Tailwind|Bootstrap|WordPress|Wix|Squarespace|Webflow|Framer)\b
  bpat (litAlts ["startup", "company", "funding", "investment", "venture", "capital",
    "IPO", "acquisition", "merger", "partnership", "collaboration", "Meta", "Google",
    "Apple", "Microsoft", "Amazon", "OpenAI", "Anthropic", "Tesla", "Netflix", "Uber",
    "Airbnb", "Cursor", "Figma", "Perplexity", "GitHub", "GitLab", "Notion", "Slack",
    "Discord", "Zoom", "Salesforce", "Adobe", "Nvidia", "Intel", "AMD", "Qualcomm",
    "SpaceX", "Stripe", "PayPal", "Square", "Shopify", "Atlassian", "Dropbox", "Box",
    "Cloudflare", "Vercel", "MongoDB", "Redis", "Docker", "Kubernetes", "AWS", "Azure",
    "GCP", "Snowflake", "Databricks", "Palantir", "Unity", "Epic", "Roblox", "TikTok",
    "Twitter", "X", "LinkedIn", "Instagram", "WhatsApp", "Telegram", "Signal", "Spotify",
    "YouTube", "Twitch", "Reddit", "Pinterest", "Snapchat", "ByteDance", "Tencent",
    "Alibaba", "Baidu", "Samsung", "Sony", "LG", "Huawei", "Xiaomi", "OnePlus",
    "Coinbase", "Binance", "Robinhood", "Plaid", "Affirm", "Klarna", "DoorDash",
    "Instacart", "Lyft", "Waymo", "Cruise", "Rivian", "Lucid", "NIO", "BYD", "Canva",
    "Miro", "Linear", "Airtable", "Zapier", "Mailchimp", "HubSpot", "Zendesk",
    "Intercom", "Twilio", "SendGrid", "Okta", "Auth0", "Supabase", "Firebase",
    "PlanetScale", "Hasura", "Prisma", "Next.js", "React", "Vue", "Angular", "Svelte",
    "Tailwind", "Bootstrap", "WordPress", "Wix", "Squarespace", "Webflow", "Framer"]),
  -- \b(AI|artificial\s+intelligence|machine\s+learning|ML|reinforcement\s+learning|deep\s+learning|data\s+science|automation|technology|tech|innovation|digital|software|platform|tool|app|product|service|techniques|developers|embedding|reranker|RAG|retrieval|semantic\s+search|vector|transformer|LLM|GPT|model|algorithm|neural\s+network|pioneer|researcher)\b
  bpat (alts [lit "AI", ph "artificial intelligence", ph "machine learning", lit "ML",
    ph "reinforcement learning", ph "deep learning", ph "data science", lit "automation",
    lit "technology", lit "tech", lit "innovation", lit "digital", lit "software",
    lit "platform", lit "tool", lit "app", lit "product", lit "service", lit "techniques",
    lit "developers", lit "embedding", lit "reranker", lit "RAG", lit "retrieval",
    ph "semantic search", lit "vector", lit "transformer", lit "LLM", lit "GPT",
    lit "model", lit "algorithm", ph "neural network", lit "pioneer", lit "researcher"]),
  -- \b(CEO|founder|executive|leader|expert|scientist|researcher|engineer|developer|designer|recruits|hires|hiring|joins)\b
  bpat (litAlts ["CEO", "founder", "executive", "leader", "expert", "scientist",
    "researcher", "engineer", "developer", "designer", "recruits", "hires", "hiring",
    "joins"]),
  -- \b(conference|event|summit|meetup|workshop|hackathon|demo|presentation|talk|keynote)\b
  bpat (litAlts ["conference", "event", "summit", "meetup", "workshop", "hackathon",
    "demo", "presentation", "talk", "keynote"]),
  -- \b(market|industry|trend|growth|strategy|business|finance|economy|economic|investment)\b
  bpat (litAlts ["market", "industry", "trend", "growth", "strategy", "business",
    "finance", "economy", "economic", "investment"])
]

/-- Generic phrases rejected in the substantive-text check (utils.js 673). -/
def genericPhrases : List String :=
  ["click here", "learn more", "see more", "get started", "sign up", "log in"]

/-- Scheme check standing in for `new URL(url)` succeeding: an ASCII
letter followed by scheme characters and a colon (the WHATWG absolute-URL
precondition).  The model abstracts the full parser; `filterRelevantLinks`
only uses success/failure and the query/fragment-stripped serialization. -/
def urlParseOk (url : String) : Bool :=
  match url.data with
  | [] => false
  | c :: _ =>
    (('a' ≤ c.toLower && c.toLower ≤ 'z') &&
      (url.data.dropWhile (fun d =>
        ('a' ≤ d.toLower && d.toLower ≤ 'z') || d.isDigit || d = '+' || d = '-' || d = '.')).head?
        == some ':')

/-- Transcription of `normalizeUrl` (utils.js 573-595): on a parsable URL
clear the query string (`urlObj.search = ''`) and fragment
(`urlObj.hash = ''`) and serialize — i.e. keep everything before the first
`?` or `#`; if URL parsing fails, return the original string. -/
def normalizeUrl (url : String) : String :=
  if urlParseOk url then
    String.mk (url.data.takeWhile (fun c => !(c = '?' || c = '#')))
  else url

/-- Model of the second pass of `filterRelevantLinks` (utils.js 691-713):
a `Set` of already-seen keys, keeping a link only when its key is fresh. -/
def dedupSeen (key : α → String) (seen : List String) : List α → List α
  | [] => []
  | x :: rest =>
    if seen.contains (key x) then dedupSeen key seen rest
    else x :: dedupSeen key (key x :: seen) rest

def dedupByKey (key : α → String) (l : List α) : List α :=
  dedupSeen key [] l

/-- Dedup key of a link: `normalizeUrl(link.url || link.href || '')`
(utils.js 696-697). -/
def linkDedupKey (l : PageLink) : String :=
  normalizeUrl (if l.url ≠ "" then l.url else if l.href ≠ "" then l.href else "")

/-- Relevance predicate of the first pass of `filterRelevantLinks`
(utils.js 635-688): drop text shorter than 3 characters, drop on any
irrelevant-pattern match, keep on any relevant-indicator match, otherwise
keep substantive 3-30-word phrases that are not generic. -/
def keepLink (link : PageLink) : Bool :=
  let linkText := trimJs link.text
  if linkText.length < 3 then false
  else if irrelevantPatterns.any (fun p => p.test linkText) then false
  else if relevantIndicators.any (fun p => p.test linkText) then true
  else
    let words := splitWsJs linkText
    if 3 ≤ words.length && words.length ≤ 30 then
      !(genericPhrases.any (fun phrase => trimJs (toLowerJs linkText) == phrase))
    else false

/-- First pass of `filterRelevantLinks`: `links.filter(...)`. -/
def relevancePass (links : List PageLink) : List PageLink :=
  links.filter keepLink

/-- Transcription of `filterRelevantLinks` (utils.js 569-716): empty input
returns `[]`; otherwise the relevance pass then deduplication on the
normalized URL alone, keeping first occurrences. -/
def filterRelevantLinks (links : List PageLink) : List PageLink :=
  if links.isEmpty then []
  else dedupByKey linkDedupKey (relevancePass links)

/-! ## SnippetSampler -/

/-- Index normalization of `Array.prototype.slice`: negative indices count
from the end, and the result is clamped to `[0, length]`. -/
def normIdx (n : Int) (i : Int) : Nat :=
  (min (max (if i < 0 then n + i else i) 0) n).toNat

/-- JavaScript `Array.prototype.slice(start, end)`. -/
def jsSlice (l : List α) (a b : Int) : List α :=
  (l.take (normIdx l.length b)).drop (normIdx l.length a)

/-- JavaScript `slice(start)` with a single argument. -/
def jsSliceFrom (l : List α) (a : Int) : List α :=
  jsSlice l a l.length

/-- The word list an email body yields in `filterRelevantEmails`
(openai-handler.js 598): `text.split(/\s+/).filter(w => w.trim().length > 0)`. -/
def emailWords (text : String) : List String :=
  (splitWsJs text).filter (fun w => 0 < (trimJs w).length)

/-- Transcription of the smart-sampling snippet construction inside
`filterRelevantEmails` (openai-handler.js 600-625), as a function of the
word list: at most 100 words are joined unchanged; otherwise the first 50
words, 25 words around the midpoint of the remainder and the last 25 words
of the remainder are joined with explicit discontinuity markers. -/
def smartSnippet (words : List String) : String :=
  if words.length ≤ 100 then sjoin words
  else
    let beginningWords := jsSlice words 0 50
    let remainingWords := jsSliceFrom words 50
    let midPoint : Int := (remainingWords.length : Int) / 2
    let middleWords := jsSlice remainingWords (midPoint - 12) (midPoint + 13)
    let endWords := jsSliceFrom remainingWords (-25)
    sjoin [sjoin beginningWords, "... [middle] ...", sjoin middleWords,
      "... [end] ...", sjoin endWords]

/-- Important short words kept by `extractMeaningfulWords` (utils.js 530). -/
def importantShortWords : List String :=
  ["AI", "ML", "VR", "AR", "UX", "UI", "HR", "PR", "SEO", "API", "CEO", "CTO", "CFO"]

/-- Transcription of `extractMeaningfulWords` (utils.js 519-535). -/
def extractMeaningfulWords (text : String) : List String :=
  if text = "" then []
  else
    ((splitWsJs text).filter (fun w => 0 < w.length)).filter
      (fun w => 3 ≤ w.length || importantShortWords.contains (toUpperJs w))

/-- Transcription of the sampling step of `extractEmailSnippet`
(utils.js 744-754), as a function of the meaningful-word list: at most 100
words are joined unchanged; otherwise the first 50 words, 35 words from
the 30% position and 15 words from the 60% position.  The source computes
the slice starts as `Math.floor(words.length * 0.3)` and
`Math.floor(words.length * 0.6)` on IEEE doubles; for the list lengths
involved this equals `3*n/10` and `3*n/5` on naturals. -/
def extractSnippetSample (words : List String) : String :=
  if words.length ≤ 100 then sjoin words
  else
    let beginning := sjoin (jsSlice words 0 50)
    let s3 : Int := (words.length * 3 / 10 : Nat)
    let s6 : Int := (words.length * 3 / 5 : Nat)
    let middle := sjoin (jsSlice words s3 (s3 + 35))
    let laterContent := sjoin (jsSlice words s6 (s6 + 15))
    -- the template literal `${b} ... [middle] ... ${m} ... [later] ... ${l}`
    -- written as the equal join-with-single-spaces
    sjoin [beginning, "... [middle] ...", middle, "... [later] ...", laterContent]

/-! ## RelevanceFilterOrchestrator (openai-handler.js 585-668)

The oracle call (`callOpenAI` + `JSON.parse` of
`response.choices[0].message.content`) happens inside one `try` block; its
outcome is therefore modelled as a single `Except` parameter:
`.error` for any throw (network failure, HTTP error surfaced after the
retries, auth failure, unparsable JSON), `.ok (some ds)` for a parsed
object carrying `emailDecisions`, and `.ok none` for a parsed object
without it (which `content.emailDecisions || []` turns into `[]`).
The snippet construction (modelled by `smartSnippet`) and the prompt only
feed the oracle call and cannot affect which branch runs. -/

structure RawEmail where
  id : String
  subject : String
  sender : String
  date : Nat
  body : String
  snippet : String
deriving DecidableEq, Repr

structure UserPreferences where
  occupation : String
  currentWork : String
  topics : List String
  frequency : String
  digestDetailedness : String
deriving DecidableEq, Repr

/-- One per-email oracle decision; the source field `include` is spelled
`incl` (`include` is a Lean keyword). -/
structure RelevanceDecision where
  id : String
  incl : Bool
  reason : String
deriving DecidableEq, Repr

/-- Transcription of `filterRelevantEmails` (openai-handler.js 585-668):
empty input returns `[]`; an oracle throw returns the input unchanged
(the catch on line 663); otherwise the ids of decisions with
`include: true` are collected into a set and the input is filtered by
membership. -/
def filterRelevantEmails (emails : List RawEmail) (_preferences : UserPreferences)
    (oracle : Except String (Option (List RelevanceDecision))) : List RawEmail :=
  if emails.isEmpty then []
  else
    match oracle with
    | .error _ => emails
    | .ok parsed =>
      let decisions := parsed.getD []
      let relevantIds := (decisions.filter (fun d => d.incl)).map (fun d => d.id)
      emails.filter (fun e => relevantIds.contains e.id)

/-! ## The oracle call with retries (openai-handler.js 481-519) -/

/-- Outcome of one `fetch` of the OpenAI endpoint: a 2xx response with its
parsed body, a non-ok HTTP response, or a thrown network error. -/
inductive FetchOutcome where
  | ok (value : String)
  | httpError (status : Nat) (statusText : String) (body : String)
  | netError (msg : String)
deriving DecidableEq, Repr

/-- Observable behaviour of one `callOpenAI` run: the returned value or
the finally-thrown error, the number of fetch attempts made, and the list
of backoff delays (ms) slept in order. -/
structure CallTrace where
  result : Except String String
  attempts : Nat
  delays : List Nat
deriving Repr

def MAX_RETRIES : Nat := 3

def RETRY_DELAY : Nat := 1000

/-- Loop body of `callOpenAI` (openai-handler.js 485-517); `responses i`
is the outcome of the fetch on iteration `i`.  A 429 response sleeps
`RETRY_DELAY * 2^i` and retries; any other non-ok response reaches
`throw lastError` (line 508), but that throw happens inside the `try` and
is caught by the `catch` on line 511, which only stores the error — so the
loop continues with the next attempt, without a delay.  A network throw is
likewise stored and retried.  After the loop the last error is thrown. -/
def callOpenAIGo (responses : Nat → FetchOutcome) :
    Nat → Nat → String → List Nat → CallTrace
  | 0, i, lastError, delays => ⟨.error lastError, i, delays⟩
  | remaining + 1, i, lastError, delays =>
    match responses i with
    | .ok v => ⟨.ok v, i + 1, delays⟩
    | .httpError status statusText body =>
      let err := "OpenAI API error: " ++ toString status ++ " " ++ statusText ++ " - " ++ body
      if status == 429 then
        callOpenAIGo responses remaining (i + 1) err (delays ++ [RETRY_DELAY * 2 ^ i])
      else
        callOpenAIGo responses remaining (i + 1) err delays
    | .netError m => callOpenAIGo responses remaining (i + 1) m delays

def callOpenAI (responses : Nat → FetchOutcome) : CallTrace :=
  callOpenAIGo responses MAX_RETRIES 0 "" []

/-! ## HtmlTextExtractor (scheduler.js 380-694, offscreen document) -/

/-- Case-sensitive literal character (the encoding fixes carry only the
`g` flag, not `i`). -/
def echar (c : Char) : Rx :=
  .cls (fun d => d == c)

def elit (w : String) : Rx :=
  w.data.foldr (fun c r => .seq (echar c) r) .eps

/-- An unanchored case-sensitive pattern. -/
def npat (r : Rx) : JsPattern :=
  ⟨r, false, false⟩

/-- The mojibake marker `â€` (U+00E2 U+20AC) opening most artifacts. -/
def aeStr : String := "â€"

/-- Transcription of the `encodingFixes` table of `fixCharacterEncoding`
(scheduler.js 755-828), in order: pattern (all with flag `g` only) and
replacement string.  Characters written as `\uXXXX` escapes in the source
appear here via `Char.ofNat`. -/
def encodingFixes : List (JsPattern × String) := [
  (npat (elit "â€™"), apos),                                   -- â€™ → U+0027
  (npat (elit "â€˜"), apos),                                   -- â€˜ → U+0027
  (npat (elit "â€œ"), "\""),                                   -- â€œ → U+0022
  (npat (elit (aeStr ++ String.mk [Char.ofNat 0x9D])), "\""),  -- â€\u009D → U+0022
  (npat (elit aeStr), "\""),                                   -- â€ → U+0022
  (npat (elit (aeStr ++ "\"")), "—"),
  (npat (elit (aeStr ++ "\"")), "–"),
  (npat (elit (aeStr ++ String.mk [Char.ofNat 0x93])), "—"),
  (npat (elit (aeStr ++ String.mk [Char.ofNat 0x92])), "–"),
  (npat (elit (aeStr ++ String.mk [Char.ofNat 0x98])), apos),
  (npat (elit (aeStr ++ String.mk [Char.ofNat 0x99])), apos),
  (npat (elit (aeStr ++ String.mk [Char.ofNat 0x9C])), "\""),
  (npat (elit "â€¦"), "…"),
  (npat (elit "â€¢"), "•"),
  (npat (elit (aeStr ++ String.mk [Char.ofNat 0xA6])), "…"),
  (npat (elit ("Â" ++ String.mk [Char.ofNat 0xA0])), " "),
  (npat (elit "Â "), " "),
  (npat (elit "Â"), ""),
  (npat (elit "â€²"), "′"),
  (npat (elit "â€³"), "″"),
  (npat (elit "â‚¬"), "€"),
  (npat (elit "Â£"), "£"),
  (npat (elit "Â¥"), "¥"),
  (npat (elit "Â©"), "©"),
  (npat (elit "Â®"), "®"),
  (npat (elit "â„¢"), "™"),
  (npat (elit "Â°"), "°"),
  (npat (elit "Â±"), "±"),
  (npat (elit "Â½"), "½"),
  (npat (elit "Â¼"), "¼"),
  (npat (elit "Â¾"), "¾"),
  (npat (elit "Ã¡"), "á"), (npat (elit "Ã "), "à"), (npat (elit "Ã¢"), "â"),
  (npat (elit "Ã£"), "ã"), (npat (elit "Ã¤"), "ä"), (npat (elit "Ã¥"), "å"),
  (npat (elit "Ã©"), "é"), (npat (elit "Ã¨"), "è"), (npat (elit "Ãª"), "ê"),
  (npat (elit "Ã«"), "ë"),
  (npat (elit "Ã­"), "í"), (npat (elit "Ã¬"), "ì"), (npat (elit "Ã®"), "î"),
  (npat (elit "Ã¯"), "ï"),
  (npat (elit "Ã³"), "ó"), (npat (elit "Ã²"), "ò"), (npat (elit "Ã´"), "ô"),
  (npat (elit "Ãµ"), "õ"), (npat (elit "Ã¶"), "ö"), (npat (elit "Ã¸"), "ø"),
  (npat (elit "Ãº"), "ú"), (npat (elit "Ã¹"), "ù"), (npat (elit "Ã»"), "û"),
  (npat (elit "Ã¼"), "ü"),
  (npat (elit "Ã±"), "ñ"), (npat (elit "Ã§"), "ç"), (npat (elit "Ã¿"), "ÿ"),
  (npat (elit ("Ã" ++ String.mk [Char.ofNat 0x81])), "Á"),
  (npat (elit ("Ã" ++ String.mk [Char.ofNat 0x80])), "À"),
  (npat (elit ("Ã" ++ String.mk [Char.ofNat 0x82])), "Â"),
  (npat (elit ("Ã" ++ String.mk [Char.ofNat 0x83])), "Ã"),
  (npat (elit ("Ã" ++ String.mk [Char.ofNat 0x84])), "Ä"),
  (npat (elit ("Ã" ++ String.mk [Char.ofNat 0x85])), "Å"),
  (npat (elit ("Ã" ++ String.mk [Char.ofNat 0x89])), "É"),
  (npat (elit ("Ã" ++ String.mk [Char.ofNat 0x88])), "È"),
  (npat (elit ("Ã" ++ String.mk [Char.ofNat 0x8A])), "Ê"),
  (npat (elit ("Ã" ++ String.mk [Char.ofNat 0x8B])), "Ë"),
  (npat (elit ("Ã" ++ String.mk [Char.ofNat 0x8D])), "Í"),
  (npat (elit ("Ã" ++ String.mk [Char.ofNat 0x8C])), "Ì"),
  (npat (elit ("Ã" ++ String.mk [Char.ofNat 0x8E])), "Î"),
  (npat (elit ("Ã" ++ String.mk [Char.ofNat 0x8F])), "Ï"),
  (npat (elit ("Ã" ++ String.mk [Char.ofNat 0x93])), "Ó"),
  (npat (elit ("Ã" ++ String.mk [Char.ofNat 0x92])), "Ò"),
  (npat (elit ("Ã" ++ String.mk [Char.ofNat 0x94])), "Ô"),
  (npat (elit ("Ã" ++ String.mk [Char.ofNat 0x95])), "Õ"),
  (npat (elit ("Ã" ++ String.mk [Char.ofNat 0x96])), "Ö"),
  (npat (elit ("Ã" ++ String.mk [Char.ofNat 0x98])), "Ø"),
  (npat (elit ("Ã" ++ String.mk [Char.ofNat 0x9A])), "Ú"),
  (npat (elit ("Ã" ++ String.mk [Char.ofNat 0x99])), "Ù"),
  (npat (elit ("Ã" ++ String.mk [Char.ofNat 0x9B])), "Û"),
  (npat (elit ("Ã" ++ String.mk [Char.ofNat 0x9C])), "Ü"),
  (npat (elit ("Ã" ++ String.mk [Char.ofNat 0x91])), "Ñ"),
  (npat (elit ("Ã" ++ String.mk [Char.ofNat 0x87])), "Ç"),
  -- â€[^\w\s]
  (npat (cat [elit aeStr, .cls (fun c => !(isWordChar c || isWsChar c))]), " "),
  -- â€\s
  (npat (cat [elit aeStr, ws1]), " "),
  -- â€$
  (⟨elit aeStr, false, true⟩, ""),
  (npat (elit aeStr), " "),
  -- \s{2,}
  (npat (cat [ws1, .plus ws1]), " "),
  --  +
  (npat (.plus (echar (Char.ofNat 0xA0))), " "),
  -- [ -‏]
  (npat (.cls (fun c => 0x2000 ≤ c.toNat && c.toNat ≤ 0x200F)), " "),
  -- [ - ]
  (npat (.cls (fun c => 0x2028 ≤ c.toNat && c.toNat ≤ 0x2029)), " ")
]

/-- Transcription of `fixCharacterEncoding` (scheduler.js 701-849): apply
every fix in order, then `trim()` (the function body also logs extensive
diagnostics, which have no effect on the result). -/
def fixCharacterEncoding (text : String) : String :=
  trimJs (encodingFixes.foldl (fun acc pr => pr.1.replace pr.2 acc) text)

/-- The regex `<[^>]*>` used by the ultimate fallback of
`cleanEmailContent` (scheduler.js 691) and by the messaging fallback in
openai-handler.js 129. -/
def tagPattern : JsPattern :=
  npat (cat [echar '<', .opt (.plus (.cls (fun c => c != '>'))), echar '>'])

/-- The fallback text extraction
`htmlString.replace(/<[^>]*>/g, ' ').replace(/\s+/g, ' ').trim()`. -/
def stripHtmlTags (s : String) : String :=
  trimJs (collapseWs (tagPattern.replace " " s))

/-- Result record of the extractor: cleaned text and harvested links. -/
structure CleanedContent where
  text : String
  links : List String
deriving DecidableEq, Repr

/-- Transcription of `cleanEmailContent` (scheduler.js 380-694).  The body
of the `try` block — DOM construction, the noise-removal pass and the
three extraction strategies — runs in the offscreen document against a
live DOM and is abstracted as the `domResult` parameter: `.ok` carries the
`{text, links}` the try block would return, `.error` stands for any throw
during it.  The function itself never throws: the empty string returns
early (JS falsiness), and the catch degrades to regex tag stripping plus
encoding repair over the raw string with an empty link list. -/
def cleanEmailContent (htmlString : String)
    (domResult : Except String CleanedContent) : CleanedContent :=
  if htmlString = "" then ⟨"", []⟩
  else
    match domResult with
    | .ok res => res
    | .error _ => ⟨fixCharacterEncoding (stripHtmlTags htmlString), []⟩

/-! ## extractLinksFromHtml (scheduler.js 233-372)

The DOM traversal that picks an anchor list and a text candidate for each
anchor (strategies 1-4, lines 254-320) is abstracted as the input list:
each `AnchorCandidate` is an `a[href]` element's `href` attribute together
with the text the strategies settled on.  Every strategy assigns
`something.trim()`, which the model reproduces by trimming the candidate.
Relative-URL resolution against another absolute link of the document
(lines 336-348) is abstracted as the `resolve` parameter.  The filtering
gauntlet and the final dedup (lines 246-366) are transcribed. -/

structure AnchorCandidate where
  href : String
  rawText : String
deriving DecidableEq, Repr

def processAnchor (resolve : String → String) (a : AnchorCandidate) :
    Option PageLink :=
  if a.href = "" || startsWithJs a.href "javascript:" || startsWithJs a.href "mailto:" ||
      startsWithJs a.href "#" then
    none
  else
    let text := trimJs a.rawText
    if text = "" || text.length < 3 then none
    else
      let text2 := trimJs (collapseWs text)
      if text2 == a.href || includesJs a.href text2 then none
      else
        let url :=
          if startsWithJs a.href "/" || startsWithJs a.href "./" then resolve a.href
          else a.href
        some ⟨text2, a.href, url⟩

/-- Dedup key of the final pass (scheduler.js 358):
`url + "|||" + text.toLowerCase()`. -/
def comboKey (l : PageLink) : String :=
  l.url ++ "|||" ++ toLowerJs l.text

def extractLinksFromHtml (resolve : String → String)
    (anchors : List AnchorCandidate) : List PageLink :=
  dedupByKey comboKey (anchors.filterMap (processAnchor resolve))

/-! ## Specification-side metrics and concrete inputs used by the claims -/

/-- The discontinuity markers the samplers insert (`[end]` in the
orchestrator, `[later]` in `extractEmailSnippet`). -/
def sepMarkers : List String := ["...", "[middle]", "[end]", "[later]"]

/-- Word count of a snippet ignoring separator tokens: split on
whitespace and drop the marker tokens. -/
def snippetWordCount (s : String) : Nat :=
  ((splitWsJs s).filter (fun w => !(sepMarkers.contains w))).length

/-- A 300-word cleaned body: the distinct words `w0` … `w299`. -/
def words300 : List String :=
  (List.range 300).map (fun i => "w" ++ toString i)

/-- The first character, if any, is not whitespace. -/
def headNotWs (l : List Char) : Prop :=
  ∀ c, l.head? = some c → isWsChar c = false

/-- The last character, if any, is not whitespace. -/
def lastNotWs (l : List Char) : Prop :=
  ∀ c, l.getLast? = some c → isWsChar c = false

/-- Property of a usable word: nonempty and whitespace-free. -/
def goodWord (w : List Char) : Prop :=
  w ≠ [] ∧ ∀ c ∈ w, isWsChar c = false

instance (w : List Char) : Decidable (goodWord w) := by
  unfold goodWord
  infer_instance

/-! ## Lemmas on the seen-set deduplication -/

theorem dedupSeen_subset {key : α → String} {seen : List String} {l : List α}
    {x : α} (hx : x ∈ dedupSeen key seen l) : x ∈ l := by
  induction l generalizing seen with
  | nil => simp [dedupSeen] at hx
  | cons y rest ih =>
    rw [dedupSeen] at hx
    by_cases h : seen.contains (key y) = true
    · rw [if_pos h] at hx
      exact List.mem_cons_of_mem _ (ih hx)
    · rw [if_neg h] at hx
      rcases List.mem_cons.mp hx with rfl | hx2
      · exact List.mem_cons_self _ _
      · exact List.mem_cons_of_mem _ (ih hx2)

theorem dedupSeen_not_seen {key : α → String} {seen : List String} {l : List α}
    {x : α} (hx : x ∈ dedupSeen key seen l) : seen.contains (key x) = false := by
  induction l generalizing seen with
  | nil => simp [dedupSeen] at hx
  | cons y rest ih =>
    rw [dedupSeen] at hx
    by_cases h : seen.contains (key y) = true
    · rw [if_pos h] at hx
      exact ih hx
    · rw [if_neg h] at hx
      rcases List.mem_cons.mp hx with rfl | hx2
      · exact Bool.eq_false_iff.mpr h
      · have h2 := ih hx2
        simp only [List.contains_cons, Bool.or_eq_false_iff] at h2
        exact h2.2

theorem dedupSeen_pairwise (key : α → String) (seen : List String) (l : List α) :
    List.Pairwise (fun a b => key a ≠ key b) (dedupSeen key seen l) := by
  induction l generalizing seen with
  | nil => simp [dedupSeen]
  | cons y rest ih =>
    rw [dedupSeen]
    by_cases h : seen.contains (key y) = true
    · rw [if_pos h]
      exact ih seen
    · rw [if_neg h]
      refine List.Pairwise.cons ?_ (ih (key y :: seen))
      intro b hb hk
      have h2 := dedupSeen_not_seen hb
      simp only [List.contains_cons, Bool.or_eq_false_iff] at h2
      have h3 := h2.1
      rw [hk] at h3
      simp at h3

theorem dedupSeen_first_kept {key : α → String} {k : String} :
    ∀ (l : List α) (seen : List String), (∃ x ∈ l, key x = k) →
      seen.contains k = false →
      ∃ y, l.find? (fun z => key z == k) = some y ∧ y ∈ dedupSeen key seen l ∧ key y = k
  | [], _, h, _ => by simp at h
  | y :: rest, seen, h, hs => by
    by_cases hy : key y = k
    · refine ⟨y, ?_, ?_, hy⟩
      · have : (key y == k) = true := beq_iff_eq.mpr hy
        simp [List.find?, this]
      · have hns : seen.contains (key y) = false := by rwa [hy]
        have hns' : ¬seen.contains (key y) = true := by
          rw [hns]
          exact Bool.false_ne_true
        rw [dedupSeen, if_neg hns']
        exact List.mem_cons_self _ _
    · have h' : ∃ x ∈ rest, key x = k := by
        rcases h with ⟨x, hx, hk⟩
        rcases List.mem_cons.mp hx with rfl | hx2
        · exact absurd hk hy
        · exact ⟨x, hx2, hk⟩
      have hne : (key y == k) = false := beq_eq_false_iff_ne.mpr hy
      by_cases hseen : seen.contains (key y) = true
      · rcases dedupSeen_first_kept rest seen h' hs with ⟨z, hf, hm, hk⟩
        refine ⟨z, ?_, ?_, hk⟩
        · simp [List.find?, hne, hf]
        · rw [dedupSeen, if_pos hseen]
          exact hm
      · have hs' : (key y :: seen).contains k = false := by
          simp only [List.contains_cons, Bool.or_eq_false_iff]
          exact ⟨beq_eq_false_iff_ne.mpr (fun e => hy e.symm), hs⟩
        rcases dedupSeen_first_kept rest (key y :: seen) h' hs' with ⟨z, hf, hm, hk⟩
        refine ⟨z, ?_, ?_, hk⟩
        · simp [List.find?, hne, hf]
        · rw [dedupSeen, if_neg hseen]
          exact List.mem_cons_of_mem _ hm

/-! ## Lemmas on trimming and whitespace collapsing -/

theorem head?_dropWhile_ws {l : List Char} {c : Char}
    (h : (l.dropWhile isWsChar).head? = some c) : isWsChar c = false := by
  have := List.head?_dropWhile_not isWsChar l
  rw [h] at this
  exact this

theorem getLast?_dropWhile_of_ne_nil {p : Char → Bool} {l : List Char}
    (h : l.dropWhile p ≠ []) : (l.dropWhile p).getLast? = l.getLast? := by
  conv_rhs => rw [← List.takeWhile_append_dropWhile p l]
  rw [List.getLast?_append]
  rcases h' : (l.dropWhile p).getLast? with _ | c
  · exact absurd (List.getLast?_eq_none_iff.mp h') h
  · rfl

theorem trimL_headNotWs (s : List Char) : headNotWs (trimL s) := by
  intro c hc
  unfold trimL at hc
  rw [List.head?_reverse] at hc
  have hne : (((s.dropWhile isWsChar).reverse).dropWhile isWsChar) ≠ [] := by
    intro h
    rw [h] at hc
    simp at hc
  rw [getLast?_dropWhile_of_ne_nil hne, List.getLast?_reverse] at hc
  exact head?_dropWhile_ws hc

theorem trimL_lastNotWs (s : List Char) : lastNotWs (trimL s) := by
  intro c hc
  unfold trimL at hc
  rw [List.getLast?_reverse] at hc
  exact head?_dropWhile_ws hc

theorem collapseGo_ne_nil_false {s : List Char} (h : s ≠ []) :
    collapseGo false s ≠ [] := by
  cases s with
  | nil => exact absurd rfl h
  | cons c rest =>
    rw [collapseGo]
    by_cases hw : isWsChar c = true
    · rw [if_pos hw]
      simp
    · rw [if_neg hw]
      simp

theorem collapseL_ne_nil {s : List Char} (h : s ≠ []) : collapseL s ≠ [] :=
  collapseGo_ne_nil_false h

theorem lastNotWs_of_cons {c : Char} {rest : List Char}
    (h : lastNotWs (c :: rest)) (hne : rest ≠ []) : lastNotWs rest := by
  intro d hd
  apply h d
  rw [List.getLast?_cons, hd]
  rfl

theorem getLast?_cons_of_ne_nil {c : Char} {l : List Char} (h : l ≠ []) :
    (c :: l).getLast? = l.getLast? := by
  rw [List.getLast?_cons]
  rcases hl : l.getLast? with _ | d
  · exact absurd (List.getLast?_eq_none_iff.mp hl) h
  · rfl

theorem rest_ne_nil_of_ws_last {c : Char} {rest : List Char}
    (h : lastNotWs (c :: rest)) (hw : isWsChar c = true) : rest ≠ [] := by
  intro hr
  subst hr
  have h2 := h c (by simp)
  rw [h2] at hw
  exact Bool.false_ne_true hw

theorem collapseGo_ne_nil_of_last :
    ∀ (s : List Char) (b : Bool), s ≠ [] → lastNotWs s → collapseGo b s ≠ []
  | [], _, hne, _ => absurd rfl hne
  | c :: rest, b, _, h => by
    rw [collapseGo]
    by_cases hw : isWsChar c = true
    · rw [if_pos hw]
      have hrne : rest ≠ [] := rest_ne_nil_of_ws_last h hw
      have hrest := lastNotWs_of_cons h hrne
      cases b with
      | true => exact collapseGo_ne_nil_of_last rest true hrne hrest
      | false => simp
    · rw [if_neg hw]
      simp

theorem collapseL_headNotWs {s : List Char} (h : headNotWs s) :
    headNotWs (collapseL s) := by
  unfold collapseL
  cases s with
  | nil =>
    intro c hc
    simp [collapseGo] at hc
  | cons c rest =>
    have hcw : isWsChar c = false := h c rfl
    rw [collapseGo, if_neg (by rw [hcw]; exact Bool.false_ne_true)]
    intro d hd
    simp only [List.head?_cons, Option.some.injEq] at hd
    rw [← hd]
    exact hcw

theorem collapseGo_lastNotWs :
    ∀ (s : List Char) (b : Bool), lastNotWs s → lastNotWs (collapseGo b s)
  | [], b, _ => by
    intro c hc
    simp [collapseGo] at hc
  | c :: rest, b, h => by
    rw [collapseGo]
    by_cases hw : isWsChar c = true
    · rw [if_pos hw]
      have hrne : rest ≠ [] := rest_ne_nil_of_ws_last h hw
      have hrest := lastNotWs_of_cons h hrne
      have hgne : collapseGo true rest ≠ [] :=
        collapseGo_ne_nil_of_last rest true hrne hrest
      cases b with
      | true => exact collapseGo_lastNotWs rest true hrest
      | false =>
        intro d hd
        rw [if_neg (Bool.false_ne_true), getLast?_cons_of_ne_nil hgne] at hd
        exact collapseGo_lastNotWs rest true hrest d hd
    · rw [if_neg hw]
      by_cases hrne : rest = []
      · subst hrne
        intro d hd
        simp only [collapseGo, List.getLast?_cons, List.getLast?_nil,
          Option.getD_none, Option.some.injEq] at hd
        rw [← hd]
        exact h c (by simp)
      · have hrest := lastNotWs_of_cons h hrne
        have hgne : collapseGo false rest ≠ [] := collapseGo_ne_nil_false hrne
        intro d hd
        rw [getLast?_cons_of_ne_nil hgne] at hd
        exact collapseGo_lastNotWs rest false hrest d hd

theorem collapseL_lastNotWs {s : List Char} (h : lastNotWs s) :
    lastNotWs (collapseL s) :=
  collapseGo_lastNotWs s false h

theorem collapseL_length_ge_two {s : List Char} (hlen : 2 ≤ s.length)
    (h : lastNotWs s) : 2 ≤ (collapseL s).length := by
  unfold collapseL
  cases s with
  | nil => simp at hlen
  | cons c rest =>
    have hrne : rest ≠ [] := by
      intro hr
      subst hr
      simp at hlen
    rw [collapseGo]
    by_cases hw : isWsChar c = true
    · rw [if_pos hw, if_neg (Bool.false_ne_true)]
      have hrest := lastNotWs_of_cons h hrne
      have hgne : collapseGo true rest ≠ [] :=
        collapseGo_ne_nil_of_last rest true hrne hrest
      have h1 : 1 ≤ (collapseGo true rest).length :=
        Nat.one_le_iff_ne_zero.mpr (fun h0 => hgne (List.length_eq_zero.mp h0))
      simp only [List.length_cons]
      omega
    · rw [if_neg hw]
      have hgne : collapseGo false rest ≠ [] := collapseGo_ne_nil_false hrne
      have h1 : 1 ≤ (collapseGo false rest).length :=
        Nat.one_le_iff_ne_zero.mpr (fun h0 => hgne (List.length_eq_zero.mp h0))
      simp only [List.length_cons]
      omega

theorem collapseL_length_ge_three {s : List Char} (hlen : 3 ≤ s.length)
    (hh : headNotWs s) (hl : lastNotWs s) : 3 ≤ (collapseL s).length := by
  cases s with
  | nil => simp at hlen
  | cons c rest =>
    have hcw : isWsChar c = false := hh c rfl
    have hrne : rest ≠ [] := by
      intro hr
      subst hr
      simp at hlen
    have hrlen : 2 ≤ rest.length := by
      simp only [List.length_cons] at hlen
      omega
    have hrest : lastNotWs rest := lastNotWs_of_cons hl hrne
    have h2 := collapseL_length_ge_two hrlen hrest
    unfold collapseL at h2 ⊢
    rw [collapseGo, if_neg (by rw [hcw]; exact Bool.false_ne_true)]
    simp only [List.length_cons]
    omega

theorem dropWhile_eq_self_of_headNotWs {l : List Char} (h : headNotWs l) :
    l.dropWhile isWsChar = l := by
  cases l with
  | nil => rfl
  | cons c rest =>
    rw [List.dropWhile_cons, if_neg]
    rw [h c rfl]
    exact Bool.false_ne_true

theorem trimL_eq_self {l : List Char} (hh : headNotWs l) (hl : lastNotWs l) :
    trimL l = l := by
  unfold trimL
  rw [dropWhile_eq_self_of_headNotWs hh]
  have hrev : headNotWs l.reverse := by
    intro c hc
    rw [List.head?_reverse] at hc
    exact hl c hc
  rw [dropWhile_eq_self_of_headNotWs hrev, List.reverse_reverse]

/-- Combined length fact used by the link-extraction invariant: a trimmed
text of length at least 3 keeps length at least 3 after whitespace
normalization (`replace(/\s+/g, ' ').trim()`). -/
theorem trim_collapse_trim_length {raw : String} (h : 3 ≤ (trimJs raw).length) :
    3 ≤ (trimJs (collapseWs (trimJs raw))).length := by
  have hh : headNotWs (trimL raw.data) := trimL_headNotWs raw.data
  have hl : lastNotWs (trimL raw.data) := trimL_lastNotWs raw.data
  have hlen : 3 ≤ (trimL raw.data).length := h
  have hch : headNotWs (collapseL (trimL raw.data)) := collapseL_headNotWs hh
  have hcl : lastNotWs (collapseL (trimL raw.data)) := collapseL_lastNotWs hl
  have heq : trimL (collapseL (trimL raw.data)) = collapseL (trimL raw.data) :=
    trimL_eq_self hch hcl
  show 3 ≤ (trimL (collapseL (trimL raw.data))).length
  rw [heq]
  exact collapseL_length_ge_three hlen hh hl

/-! ## Properties of processAnchor -/

theorem processAnchor_some {resolve : String → String} {a : AnchorCandidate}
    {l : PageLink} (h : processAnchor resolve a = some l) :
    l.text = trimJs (collapseWs (trimJs a.rawText)) ∧ l.href = a.href ∧
      3 ≤ (trimJs a.rawText).length ∧
      startsWithJs a.href "javascript:" = false ∧
      startsWithJs a.href "mailto:" = false ∧
      startsWithJs a.href "#" = false ∧
      (l.text == a.href) = false ∧ includesJs a.href l.text = false := by
  simp only [processAnchor] at h
  split at h
  · exact absurd h (by simp)
  · next hc1 =>
    split at h
    · exact absurd h (by simp)
    · next hc2 =>
      split at h
      · exact absurd h (by simp)
      · next hc3 =>
        have hl := (Option.some.injEq _ _).mp h
        subst hl
        simp only [Bool.or_eq_true, decide_eq_true_eq, not_or] at hc1 hc2 hc3
        refine ⟨rfl, rfl, ?_, ?_, ?_, ?_, ?_, ?_⟩
        · have h2 := hc2.2
          simp only [decide_eq_true_eq, Nat.not_lt] at h2
          exact h2
        · exact Bool.eq_false_iff.mpr hc1.1.1.2
        · exact Bool.eq_false_iff.mpr hc1.1.2
        · exact Bool.eq_false_iff.mpr hc1.2
        · exact Bool.eq_false_iff.mpr hc3.1
        · exact Bool.eq_false_iff.mpr hc3.2

/-! ## Claim theorems -/

/-- C3: the output of the link classifier `filterRelevantLinks` contains no
two elements whose normalized URLs (query and fragment cleared, falling
back to the raw string when parsing fails — `linkDedupKey`) are equal, and
among surviving links sharing a normalized URL the first occurrence (the
`find?` witness) is the one kept. -/
theorem C3_link_dedup_invariant (links : List PageLink) :
    List.Pairwise (fun a b => linkDedupKey a ≠ linkDedupKey b)
      (filterRelevantLinks links) ∧
    ∀ x ∈ relevancePass links,
      ∃ y, (relevancePass links).find? (fun z => linkDedupKey z == linkDedupKey x) = some y ∧
        y ∈ filterRelevantLinks links ∧ linkDedupKey y = linkDedupKey x := by
  unfold filterRelevantLinks
  by_cases he : links.isEmpty = true
  · rw [if_pos he]
    have hnil : links = [] := List.isEmpty_iff.mp he
    subst hnil
    refine ⟨List.Pairwise.nil, ?_⟩
    intro x hx
    simp [relevancePass] at hx
  · rw [if_neg he]
    refine ⟨dedupSeen_pairwise _ _ _, ?_⟩
    intro x hx
    exact dedupSeen_first_kept (relevancePass links) [] ⟨x, hx, rfl⟩ rfl

/-- Witness for C3 at Scenario B of the specification: two links to the
same article distinguished only by tracking query parameters; the first
one is kept. -/
theorem C3_link_dedup_witness :
    (⟨"Full report here", "https://x.com/a?utm_source=2",
        "https://x.com/a?utm_source=2"⟩ : PageLink) ∈
      relevancePass
        [⟨"Read the report", "https://x.com/a?utm_source=1", "https://x.com/a?utm_source=1"⟩,
         ⟨"Full report here", "https://x.com/a?utm_source=2", "https://x.com/a?utm_source=2"⟩] ∧
    ∃ y, (relevancePass
        [⟨"Read the report", "https://x.com/a?utm_source=1", "https://x.com/a?utm_source=1"⟩,
         ⟨"Full report here", "https://x.com/a?utm_source=2", "https://x.com/a?utm_source=2"⟩]).find?
        (fun z => linkDedupKey z ==
          linkDedupKey ⟨"Full report here", "https://x.com/a?utm_source=2",
            "https://x.com/a?utm_source=2"⟩) = some y ∧
      y ∈ filterRelevantLinks
        [⟨"Read the report", "https://x.com/a?utm_source=1", "https://x.com/a?utm_source=1"⟩,
         ⟨"Full report here", "https://x.com/a?utm_source=2", "https://x.com/a?utm_source=2"⟩] ∧
      linkDedupKey y = linkDedupKey ⟨"Full report here", "https://x.com/a?utm_source=2",
        "https://x.com/a?utm_source=2"⟩ :=
  ⟨by decide,
   (C3_link_dedup_invariant
      [⟨"Read the report", "https://x.com/a?utm_source=1", "https://x.com/a?utm_source=1"⟩,
       ⟨"Full report here", "https://x.com/a?utm_source=2", "https://x.com/a?utm_source=2"⟩]).2
     ⟨"Full report here", "https://x.com/a?utm_source=2", "https://x.com/a?utm_source=2"⟩
     (by decide)⟩

/-- C10: every link returned by `extractLinksFromHtml` has a
whitespace-normalized anchor text of length at least 3, an `href` that
does not start with `javascript:`, `mailto:` or `#`, a text that is
neither equal to nor a substring of the `href`, and no two returned links
share the same `(url, lowercased text)` combination. -/
theorem C10_extract_links_invariants (resolve : String → String)
    (anchors : List AnchorCandidate) :
    (∀ l ∈ extractLinksFromHtml resolve anchors,
        3 ≤ l.text.length ∧
        startsWithJs l.href "javascript:" = false ∧
        startsWithJs l.href "mailto:" = false ∧
        startsWithJs l.href "#" = false ∧
        includesJs l.href l.text = false ∧
        l.text ≠ l.href) ∧
    List.Pairwise (fun a b => ¬(a.url = b.url ∧ toLowerJs a.text = toLowerJs b.text))
      (extractLinksFromHtml resolve anchors) := by
  constructor
  · intro l hl
    have hmem : l ∈ anchors.filterMap (processAnchor resolve) :=
      dedupSeen_subset hl
    rcases List.mem_filterMap.mp hmem with ⟨a, _, hpa⟩
    rcases processAnchor_some hpa with ⟨htext, hhref, hlen, hjs, hml, hhash, hbeq, hincl⟩
    refine ⟨?_, ?_, ?_, ?_, ?_, ?_⟩
    · rw [htext]
      exact trim_collapse_trim_length hlen
    · rw [hhref]; exact hjs
    · rw [hhref]; exact hml
    · rw [hhref]; exact hhash
    · rw [hhref]; exact hincl
    · rw [hhref]
      exact beq_eq_false_iff_ne.mp hbeq
  · have hp := dedupSeen_pairwise comboKey [] (anchors.filterMap (processAnchor resolve))
    refine List.Pairwise.imp ?_ hp
    intro a b hk hcontra
    apply hk
    unfold comboKey
    rw [hcontra.1, hcontra.2]

/-- Witness for C10: a concrete anchor list containing an invalid
`javascript:` link, an untrimmed duplicate and a too-short text; the
surviving link satisfies the invariant. -/
theorem C10_extract_links_witness :
    (⟨"Read the full report", "https://x.com/a", "https://x.com/a"⟩ : PageLink) ∈
      extractLinksFromHtml id
        [⟨"https://x.com/a", "  Read the   full report  "⟩,
         ⟨"javascript:void(0)", "Read the full report"⟩,
         ⟨"https://x.com/a", "READ the full Report"⟩,
         ⟨"https://x.com/b", "ab"⟩] ∧
    3 ≤ ("Read the full report" : String).length ∧
    startsWithJs "https://x.com/a" "javascript:" = false ∧
    startsWithJs "https://x.com/a" "mailto:" = false ∧
    startsWithJs "https://x.com/a" "#" = false ∧
    includesJs "https://x.com/a" "Read the full report" = false ∧
    ("Read the full report" : String) ≠ "https://x.com/a" := by
  refine ⟨by decide, ?_⟩
  have h := (C10_extract_links_invariants id
    [⟨"https://x.com/a", "  Read the   full report  "⟩,
     ⟨"javascript:void(0)", "Read the full report"⟩,
     ⟨"https://x.com/a", "READ the full Report"⟩,
     ⟨"https://x.com/b", "ab"⟩]).1
    ⟨"Read the full report", "https://x.com/a", "https://x.com/a"⟩ (by decide)
  exact h

/-- C1: for every email list and preference record, if the oracle call
made by `filterRelevantEmails` throws for any reason, the function
returns the input email list unchanged — same length, same order, same
ids, since it is the very same list. -/
theorem C1_filter_fail_open (emails : List RawEmail) (prefs : UserPreferences)
    (err : String) :
    filterRelevantEmails emails prefs (.error err) = emails := by
  unfold filterRelevantEmails
  by_cases he : emails.isEmpty = true
  · rw [if_pos he]
    exact (List.isEmpty_iff.mp he).symm
  · rw [if_neg he]

/-- C6, counterexample to "the last decision determines whether the email
is included": with two decisions for id `a`, the first `include: true`
and the last `include: false`, the email is still included — the code
collects every `include: true` id into a set, so a later exclude cannot
override an earlier include. -/
theorem C6_last_decision_cex :
    filterRelevantEmails [⟨"a", "s", "f", 0, "b", "sn"⟩] ⟨"", "", [], "daily", "medium"⟩
        (.ok (some [⟨"a", true, "r1"⟩, ⟨"a", false, "r2"⟩])) =
      [⟨"a", "s", "f", 0, "b", "sn"⟩] ∧
    ([⟨"a", true, "r1"⟩, ⟨"a", false, "r2"⟩] : List RelevanceDecision).getLast? =
      some ⟨"a", false, "r2"⟩ ∧
    (⟨"a", false, "r2"⟩ : RelevanceDecision).incl = false := by
  refine ⟨?_, rfl, rfl⟩
  decide

/-- C6 as amended: decisions covering only a subset of the submitted ids
are tolerated — an email whose id appears in no decision is dropped — and
with duplicate decisions an email is included if and only if at least one
decision for its id carries `include: true` (an earlier include cannot be
overridden by a later exclude). -/
theorem C6_decision_semantics (emails : List RawEmail) (prefs : UserPreferences)
    (parsed : Option (List RelevanceDecision)) (e : RawEmail) :
    e ∈ filterRelevantEmails emails prefs (.ok parsed) ↔
      e ∈ emails ∧ ∃ d ∈ parsed.getD [], d.id = e.id ∧ d.incl = true := by
  unfold filterRelevantEmails
  by_cases he : emails.isEmpty = true
  · rw [if_pos he]
    have hnil : emails = [] := List.isEmpty_iff.mp he
    subst hnil
    simp
  · rw [if_neg he]
    rw [List.mem_filter]
    constructor
    · rintro ⟨hmem, hc⟩
      refine ⟨hmem, ?_⟩
      have hmm := List.elem_iff.mp hc
      rcases List.mem_map.mp hmm with ⟨d, hd, hid⟩
      rcases List.mem_filter.mp hd with ⟨hdm, hincl⟩
      exact ⟨d, hdm, hid, hincl⟩
    · rintro ⟨hmem, d, hdm, hid, hincl⟩
      refine ⟨hmem, ?_⟩
      apply List.elem_iff.mpr
      exact List.mem_map.mpr ⟨d, List.mem_filter.mpr ⟨hdm, hincl⟩, hid⟩

/-- C8: the extractor `cleanEmailContent` never throws — the empty HTML
body returns `{text: "", links: []}` before any DOM work, and any error
during the DOM-dependent extraction degrades to regex tag stripping of
the raw string (plus encoding repair), with an empty link list, rather
than signaling failure to the caller. -/
theorem C8_extract_never_fails :
    (∀ dom : Except String CleanedContent, cleanEmailContent "" dom = ⟨"", []⟩) ∧
    (∀ (html err : String), html ≠ "" →
      cleanEmailContent html (.error err) =
        ⟨fixCharacterEncoding (stripHtmlTags html), []⟩) := by
  constructor
  · intro dom
    unfold cleanEmailContent
    rw [if_pos rfl]
  · intro html err hne
    unfold cleanEmailContent
    rw [if_neg hne]

set_option maxRecDepth 100000 in
/-- Witness for C8: a DOM failure on a concrete body degrades to the
tag-stripped text. -/
theorem C8_extract_witness :
    ("<p>Hello world</p>" : String) ≠ "" ∧
    cleanEmailContent "<p>Hello world</p>" (.error "boom") = ⟨"Hello world", []⟩ := by
  refine ⟨by decide, ?_⟩
  rw [C8_extract_never_fails.2 "<p>Hello world</p>" "boom" (by decide)]
  decide

/-- C9: a 429 rate-limit response is retried with a base delay of 1000 ms
doubling per attempt up to the 3-attempt cap (second conjunct), but a
non-retriable error response does NOT fail fast: the `throw lastError`
for it is caught by the loop's own `catch`, so the code makes a further
attempt — here an HTTP 400 on the first attempt is followed by a second
fetch whose result is returned (first conjunct), contradicting the
claimed fail-fast behaviour. -/
theorem C9_nonretriable_retried :
    callOpenAI (fun n => if n = 0 then .httpError 400 "Bad Request" "bad" else .ok "v") =
      ⟨.ok "v", 2, []⟩ ∧
    callOpenAI (fun _ => .httpError 429 "Too Many Requests" "rate") =
      ⟨.error "OpenAI API error: 429 Too Many Requests - rate", 3, [1000, 2000, 4000]⟩ :=
  ⟨rfl, rfl⟩

/-! ## Lemmas for the boilerplate filter -/

theorem mk_data (s : String) : String.mk s.data = s := rfl

theorem replaceGo_id {r : Rx} {reqEnd : Bool} {repl : List Char} :
    ∀ (fuel : Nat) (prev : Option Char) (s : List Char),
      searchFrom r reqEnd prev s = false → replaceGo r reqEnd repl fuel prev s = s
  | 0, _, _, _ => rfl
  | fuel + 1, prev, s, h => by
    cases s with
    | nil =>
      rw [searchFrom] at h
      rw [replaceGo]
      rcases hm : matchHere r reqEnd prev ([] : List Char) with _ | pr
      · rfl
      · rw [hm] at h
        simp at h
    | cons c rest2 =>
      rw [searchFrom] at h
      rcases hor : Bool.or_eq_false_iff.mp h with ⟨hm0, hrest⟩
      rw [replaceGo]
      rcases hm : matchHere r reqEnd prev (c :: rest2) with _ | pr
      · simp only
        rw [replaceGo_id fuel (some c) rest2 hrest]
      · rw [hm] at hm0
        simp at hm0

theorem replace_id_of_not_test {p : JsPattern} (hA : p.aStart = false)
    {repl s : String} (h : p.test s = false) : p.replace repl s = s := by
  unfold JsPattern.test at h
  rw [hA] at h
  simp only [Bool.false_eq_true, if_false] at h
  unfold JsPattern.replace
  rw [replaceGo_id _ _ _ h]

theorem foldl_replace_id {pats : List JsPattern} {s : String}
    (h : ∀ p ∈ pats, p.aStart = false ∧ p.test s = false) :
    pats.foldl (fun acc p => p.replace " " acc) s = s := by
  induction pats with
  | nil => rfl
  | cons p ps ih =>
    have h0 := h p (List.mem_cons_self _ _)
    rw [List.foldl_cons, replace_id_of_not_test h0.1 h0.2]
    exact ih (fun q hq => h q (List.mem_cons_of_mem _ hq))

theorem filter_patterns_no_anchor :
    ∀ p ∈ BOILERPLATE_PATTERNS ++ standalonePatterns, p.aStart = false := by
  decide

set_option maxRecDepth 1000000 in
/-- C2, counterexample to idempotence: removing the standalone phrase
`unsubscribe` from "view unsubscribe browser" leaves "view browser",
which the earlier regex `\bview\s+(this\s+)?(email\s+)?(in\s+)?(your\s+)?browser\b`
only matches on the second application (the regex bank has already been
applied when the standalone pass creates the new match), so applying the
filter twice removes strictly more than applying it once. -/
theorem C2_not_idempotent :
    removeBoilerplateText (removeBoilerplateText "view unsubscribe browser") ≠
      removeBoilerplateText "view unsubscribe browser" := by
  decide

/-- C2 as amended: the filter is not idempotent in general (a removal can
create a new boilerplate phrase that only a further application removes,
see the counterexample), but it is a no-op on already-clean text: any
whitespace-normalized text in which no pattern of the regex bank and no
standalone phrase matches is returned unchanged, so re-applying the
filter to such text does nothing. -/
theorem C2_clean_fixpoint (s : String)
    (hn : trimJs (collapseWs s) = s)
    (hb : ∀ p ∈ BOILERPLATE_PATTERNS ++ standalonePatterns, p.test s = false) :
    removeBoilerplateText s = s := by
  unfold removeBoilerplateText
  by_cases he : s = ""
  · rw [if_pos he, he]
  · rw [if_neg he]
    have h1 : BOILERPLATE_PATTERNS.foldl (fun acc p => p.replace " " acc) s = s :=
      foldl_replace_id (fun p hp =>
        ⟨filter_patterns_no_anchor p (List.mem_append_left _ hp),
         hb p (List.mem_append_left _ hp)⟩)
    have h2 : standalonePatterns.foldl (fun acc p => p.replace " " acc) s = s :=
      foldl_replace_id (fun p hp =>
        ⟨filter_patterns_no_anchor p (List.mem_append_right _ hp),
         hb p (List.mem_append_right _ hp)⟩)
    show trimJs (collapseWs (standalonePatterns.foldl (fun acc p => p.replace " " acc)
      (BOILERPLATE_PATTERNS.foldl (fun acc p => p.replace " " acc) s))) = s
    rw [h1, h2, hn]

set_option maxRecDepth 1000000 in
/-- Witness for C2 as amended: the plain text "hello world" is clean, and
the filter leaves it unchanged. -/
theorem C2_clean_fixpoint_witness :
    (trimJs (collapseWs "hello world") = "hello world" ∧
      ∀ p ∈ BOILERPLATE_PATTERNS ++ standalonePatterns, p.test "hello world" = false) ∧
    removeBoilerplateText "hello world" = "hello world" :=
  ⟨⟨by decide, by decide⟩, C2_clean_fixpoint "hello world" (by decide) (by decide)⟩

/-! ## Characterization of the relevance pass -/

theorem keepLink_iff (l : PageLink) :
    keepLink l = true ↔
      (3 ≤ (trimJs l.text).length ∧
       (∀ p ∈ irrelevantPatterns, p.test (trimJs l.text) = false) ∧
       ((∃ p ∈ relevantIndicators, p.test (trimJs l.text) = true) ∨
        (3 ≤ (splitWsJs (trimJs l.text)).length ∧
         (splitWsJs (trimJs l.text)).length ≤ 30 ∧
         ∀ g ∈ genericPhrases, trimJs (toLowerJs (trimJs l.text)) ≠ g))) := by
  unfold keepLink
  by_cases h1 : (trimJs l.text).length < 3
  · rw [if_pos h1]
    apply iff_of_false Bool.false_ne_true
    rintro ⟨h3, _, _⟩
    omega
  · rw [if_neg h1]
    have h1' : 3 ≤ (trimJs l.text).length := Nat.not_lt.mp h1
    by_cases h2 : irrelevantPatterns.any (fun p => p.test (trimJs l.text)) = true
    · rw [if_pos h2]
      apply iff_of_false Bool.false_ne_true
      rintro ⟨_, hall, _⟩
      rcases List.any_eq_true.mp h2 with ⟨p, hp, ht⟩
      rw [hall p hp] at ht
      exact Bool.false_ne_true ht
    · rw [if_neg h2]
      have hall : ∀ p ∈ irrelevantPatterns, p.test (trimJs l.text) = false := by
        intro p hp
        by_contra hne
        exact h2 (List.any_eq_true.mpr ⟨p, hp, eq_true_of_ne_false hne⟩)
      by_cases h3 : relevantIndicators.any (fun p => p.test (trimJs l.text)) = true
      · rw [if_pos h3]
        apply iff_of_true rfl
        exact ⟨h1', hall, Or.inl (List.any_eq_true.mp h3)⟩
      · rw [if_neg h3]
        have hno : ∀ p ∈ relevantIndicators, p.test (trimJs l.text) = false := by
          intro p hp
          by_contra hne
          exact h3 (List.any_eq_true.mpr ⟨p, hp, eq_true_of_ne_false hne⟩)
        by_cases h4 : (decide (3 ≤ (splitWsJs (trimJs l.text)).length) &&
            decide ((splitWsJs (trimJs l.text)).length ≤ 30)) = true
        · rw [if_pos h4]
          simp only [Bool.and_eq_true, decide_eq_true_eq] at h4
          constructor
          · intro hng
            have hng' : genericPhrases.any
                (fun g => trimJs (toLowerJs (trimJs l.text)) == g) = false := by
              rw [Bool.not_eq_true'] at hng
              exact hng
            refine ⟨h1', hall, Or.inr ⟨h4.1, h4.2, ?_⟩⟩
            intro g hg heq
            have := List.any_eq_true.mpr ⟨g, hg, beq_iff_eq.mpr heq⟩
            rw [hng'] at this
            exact Bool.false_ne_true this
          · rintro ⟨_, _, hor⟩
            rcases hor with ⟨p, hp, ht⟩ | ⟨_, _, hne⟩
            · rw [hno p hp] at ht
              exact absurd ht Bool.false_ne_true
            · rw [Bool.not_eq_true']
              by_contra hbc
              rcases List.any_eq_true.mp (eq_true_of_ne_false hbc) with ⟨g, hg, hbeq⟩
              exact hne g hg (beq_iff_eq.mp hbeq)
        · rw [if_neg h4]
          apply iff_of_false Bool.false_ne_true
          rintro ⟨_, _, hor⟩
          rcases hor with ⟨p, hp, ht⟩ | ⟨hb1, hb2, _⟩
          · rw [hno p hp] at ht
            exact absurd ht Bool.false_ne_true
          · exact h4 (by simp [hb1, hb2])

/-- C7: the relevance pass keeps a link exactly when its trimmed anchor
text is at least 3 characters, matches no irrelevant-pattern regex, and
either matches a relevant-indicator regex or is a substantive 3-30-word
phrase that is not one of the generic boilerplate phrases; in particular
the anchor text "click here" alone is dropped (it matches the generic-CTA
pattern) even with a valid href. -/
theorem C7_relevance_pass :
    (∀ (links : List PageLink) (l : PageLink),
      l ∈ relevancePass links ↔
        l ∈ links ∧
        (3 ≤ (trimJs l.text).length ∧
         (∀ p ∈ irrelevantPatterns, p.test (trimJs l.text) = false) ∧
         ((∃ p ∈ relevantIndicators, p.test (trimJs l.text) = true) ∨
          (3 ≤ (splitWsJs (trimJs l.text)).length ∧
           (splitWsJs (trimJs l.text)).length ≤ 30 ∧
           ∀ g ∈ genericPhrases, trimJs (toLowerJs (trimJs l.text)) ≠ g)))) ∧
    keepLink ⟨"click here", "https://example.com/story",
      "https://example.com/story"⟩ = false := by
  constructor
  · intro links l
    unfold relevancePass
    rw [List.mem_filter, keepLink_iff]
  · decide

/-! ## Lemmas on joining and re-splitting word lists -/

theorem joinSp_cons_cons (w x : List Char) (rest : List (List Char)) :
    joinSp (w :: x :: rest) = w ++ ' ' :: joinSp (x :: rest) := by
  rw [joinSp]
  simp

theorem joinSp_ne_nil : ∀ (ws : List (List Char)), ws ≠ [] →
    (∀ w ∈ ws, w ≠ []) → joinSp ws ≠ []
  | [], hne, _ => absurd rfl hne
  | [w], _, h => by
    rw [joinSp]
    exact h w (List.mem_cons_self _ _)
  | w :: x :: rest, _, h => by
    rw [joinSp_cons_cons]
    intro hc
    rcases List.append_eq_nil.mp hc with ⟨_, h2⟩
    exact List.cons_ne_nil _ _ h2

theorem joinSp_append : ∀ (A B : List (List Char)), A ≠ [] → B ≠ [] →
    joinSp (A ++ B) = joinSp A ++ ' ' :: joinSp B
  | [], _, hA, _ => absurd rfl hA
  | [w], B, _, hB => by
    cases B with
    | nil => exact absurd rfl hB
    | cons b brest =>
      rw [List.singleton_append, joinSp_cons_cons, joinSp]
  | w :: x :: arest, B, _, hB => by
    have h2 := joinSp_append (x :: arest) B (List.cons_ne_nil _ _) hB
    rw [List.cons_append, List.cons_append, joinSp_cons_cons, ← List.cons_append, h2,
      joinSp_cons_cons]
    simp [List.append_assoc]

theorem joinSp_head? : ∀ (w : List Char) (rest : List (List Char)), w ≠ [] →
    (joinSp (w :: rest)).head? = w.head?
  | w, [], _ => by rw [joinSp]
  | c :: w', _ :: _, _ => by
    rw [joinSp_cons_cons]
    simp

theorem joinSp_getLast? : ∀ (ws : List (List Char)), (∀ w ∈ ws, w ≠ []) →
    ∀ d, (joinSp ws).getLast? = some d → ∃ w ∈ ws, w.getLast? = some d
  | [], _, d => by
    rw [joinSp]
    intro h
    simp at h
  | [w], _, d => by
    rw [joinSp]
    intro h
    exact ⟨w, List.mem_cons_self _ _, h⟩
  | w :: x :: rest, h, d => by
    rw [joinSp_cons_cons]
    intro hlast
    have hjne : joinSp (x :: rest) ≠ [] :=
      joinSp_ne_nil _ (List.cons_ne_nil _ _)
        (fun v hv => h v (List.mem_cons_of_mem _ hv))
    rw [List.getLast?_append] at hlast
    rw [getLast?_cons_of_ne_nil hjne] at hlast
    rcases hj : (joinSp (x :: rest)).getLast? with _ | e
    · exact absurd (List.getLast?_eq_none_iff.mp hj) hjne
    · rw [hj] at hlast
      simp only [Option.or_some, Option.some.injEq] at hlast
      subst hlast
      rcases joinSp_getLast? (x :: rest)
          (fun v hv => h v (List.mem_cons_of_mem _ hv)) e hj with ⟨v, hv, hvl⟩
      exact ⟨v, List.mem_cons_of_mem _ hv, hvl⟩

theorem tokensAux_word : ∀ (w : List Char) (cur t : List Char),
    (∀ c ∈ w, isWsChar c = false) →
    tokensAux cur (w ++ t) = tokensAux (w.reverse ++ cur) t
  | [], cur, t, _ => by simp
  | c :: w', cur, t, h => by
    rw [List.cons_append, tokensAux,
      if_neg (by rw [h c (List.mem_cons_self _ _)]; exact Bool.false_ne_true)]
    rw [tokensAux_word w' (c :: cur) t (fun d hd => h d (List.mem_cons_of_mem _ hd))]
    simp [List.append_assoc]

theorem tokensAux_ws_cons {cur t : List Char} {c : Char} (hws : isWsChar c = true)
    (hcur : cur ≠ []) :
    tokensAux cur (c :: t) = cur.reverse :: tokensAux [] t := by
  rw [tokensAux, if_pos hws, if_neg (by simpa using hcur)]

theorem tokensOf_single {w : List Char} (hg : goodWord w) : tokensOf w = [w] := by
  unfold tokensOf
  have h := tokensAux_word w [] [] hg.2
  rw [List.append_nil] at h
  rw [h, List.append_nil, tokensAux]
  rw [if_neg (by simpa using (fun he => hg.1 (by simpa using he)))]
  rw [List.reverse_reverse]

theorem tokensOf_join : ∀ (ws : List (List Char)), ws ≠ [] →
    (∀ w ∈ ws, goodWord w) → tokensOf (joinSp ws) = ws
  | [], hne, _ => absurd rfl hne
  | [w], _, h => by
    rw [joinSp]
    exact tokensOf_single (h w (List.mem_cons_self _ _))
  | w :: x :: rest, _, h => by
    have hw := h w (List.mem_cons_self _ _)
    have hrest : ∀ v ∈ x :: rest, goodWord v :=
      fun v hv => h v (List.mem_cons_of_mem _ hv)
    rw [joinSp_cons_cons]
    unfold tokensOf
    rw [tokensAux_word w [] _ hw.2, List.append_nil]
    rw [tokensAux_ws_cons (by decide) (by simpa using hw.1)]
    rw [List.reverse_reverse]
    have := tokensOf_join (x :: rest) (List.cons_ne_nil _ _) hrest
    unfold tokensOf at this
    rw [this]

/-- Splitting the single-space join of good words recovers the words. -/
theorem splitWsJs_sjoin (ws : List String) (hne : ws ≠ [])
    (h : ∀ w ∈ ws, goodWord w.data) : splitWsJs (sjoin ws) = ws := by
  have hmapne : ws.map String.data ≠ [] := by
    intro hk
    exact hne (List.map_eq_nil_iff.mp hk)
  have hmapg : ∀ w ∈ ws.map String.data, goodWord w := by
    intro w hw
    rcases List.mem_map.mp hw with ⟨v, hv, rfl⟩
    exact h v hv
  have hjne : joinSp (ws.map String.data) ≠ [] :=
    joinSp_ne_nil _ hmapne (fun w hw => (hmapg w hw).1)
  unfold splitWsJs sjoin
  rcases hL : joinSp (ws.map String.data) with _ | ⟨c, rest⟩
  · exact absurd hL hjne
  · simp only
    have hhead : isWsChar c = false := by
      rcases hws : ws with _ | ⟨w0, wrest⟩
      · exact absurd hws hne
      · have hg := h w0 (by rw [hws]; exact List.mem_cons_self _ _)
        have hh := joinSp_head? w0.data (wrest.map String.data) hg.1
        rw [hws] at hL
        simp only [List.map_cons] at hL
        rw [hL] at hh
        simp only [List.head?_cons] at hh
        rcases hw0 : w0.data with _ | ⟨d, drest⟩
        · exact absurd hw0 hg.1
        · rw [hw0] at hh
          simp only [List.head?_cons, Option.some.injEq] at hh
          rw [hh]
          exact hg.2 d (by rw [hw0]; exact List.mem_cons_self _ _)
    have hlast : isWsChar ((c :: rest).getLastD ' ') = false := by
      rw [List.getLastD_eq_getLast?]
      rcases hgl : (c :: rest).getLast? with _ | d
      · simp at hgl
      · rw [← hL] at hgl
        rcases joinSp_getLast? _ (fun w hw => (hmapg w hw).1) d hgl with ⟨w, hw, hwl⟩
        simp only [Option.getD_some]
        exact (hmapg w hw).2 d (List.mem_of_getLast?_eq_some hwl)
    rw [hhead, hlast]
    simp only [Bool.false_eq_true, if_false, List.nil_append, List.append_nil]
    rw [← hL]
    have htok : tokensOf (joinSp (ws.map String.data)) = ws.map String.data :=
      tokensOf_join _ hmapne hmapg
    rw [htok, List.map_map]
    have hcomp : (String.mk ∘ String.data) = id := funext mk_data
    rw [hcomp, List.map_id]

/-! ## Lemmas on slices and the flat shape of sampled snippets -/

theorem jsSlice_length (l : List α) (a b : Int) :
    (jsSlice l a b).length = normIdx l.length b - normIdx l.length a := by
  unfold jsSlice
  rw [List.length_drop, List.length_take]
  have hb : normIdx l.length b ≤ l.length := by
    unfold normIdx
    split_ifs <;> omega
  omega

theorem jsSlice_subset {l : List α} {a b : Int} {x : α}
    (h : x ∈ jsSlice l a b) : x ∈ l := by
  unfold jsSlice at h
  exact List.take_subset _ _ (List.drop_subset _ _ h)

theorem sjoin_five_flat (A B C t1 t2 : List String)
    (hA : A ≠ []) (hB : B ≠ []) (hC : C ≠ []) (ht1 : t1 ≠ []) (ht2 : t2 ≠ []) :
    sjoin [sjoin A, sjoin t1, sjoin B, sjoin t2, sjoin C] =
      sjoin (A ++ t1 ++ B ++ t2 ++ C) := by
  have hAm : A.map String.data ≠ [] := fun hk => hA (List.map_eq_nil_iff.mp hk)
  have ht1m : t1.map String.data ≠ [] := fun hk => ht1 (List.map_eq_nil_iff.mp hk)
  have hBm : B.map String.data ≠ [] := fun hk => hB (List.map_eq_nil_iff.mp hk)
  have ht2m : t2.map String.data ≠ [] := fun hk => ht2 (List.map_eq_nil_iff.mp hk)
  have hCm : C.map String.data ≠ [] := fun hk => hC (List.map_eq_nil_iff.mp hk)
  have ne_app : ∀ (X Y : List (List Char)), X ≠ [] → X ++ Y ≠ [] := by
    intro X Y hX hc
    exact hX (List.append_eq_nil.mp hc).1
  unfold sjoin
  apply congrArg String.mk
  simp only [List.map_cons, List.map_nil, List.map_append]
  rw [joinSp_cons_cons, joinSp_cons_cons, joinSp_cons_cons, joinSp_cons_cons, joinSp]
  rw [List.append_assoc, List.append_assoc, List.append_assoc]
  rw [joinSp_append _ _ hAm (ne_app _ _ ht1m)]
  rw [joinSp_append _ _ ht1m (ne_app _ _ hBm)]
  rw [joinSp_append _ _ hBm (ne_app _ _ ht2m)]
  rw [joinSp_append _ _ ht2m hCm]

theorem snippet_count_le (A B C : List String) (s1 s2 : String)
    (hA : A ≠ []) (hB : B ≠ []) (hC : C ≠ [])
    (hgA : ∀ w ∈ A, goodWord w.data) (hgB : ∀ w ∈ B, goodWord w.data)
    (hgC : ∀ w ∈ C, goodWord w.data)
    (hs1 : s1 = "[middle]" ∨ s1 = "[end]" ∨ s1 = "[later]")
    (hs2 : s2 = "[middle]" ∨ s2 = "[end]" ∨ s2 = "[later]") :
    snippetWordCount (sjoin [sjoin A, sjoin ["...", s1, "..."], sjoin B,
      sjoin ["...", s2, "..."], sjoin C]) ≤ A.length + B.length + C.length := by
  have hg1 : ∀ w ∈ ["...", s1, "..."], goodWord w.data := by
    intro w hw
    rcases hs1 with rfl | rfl | rfl <;>
      · simp only [List.mem_cons, List.not_mem_nil, or_false] at hw
        rcases hw with rfl | rfl | rfl <;> exact ⟨by decide, by decide⟩
  have hg2 : ∀ w ∈ ["...", s2, "..."], goodWord w.data := by
    intro w hw
    rcases hs2 with rfl | rfl | rfl <;>
      · simp only [List.mem_cons, List.not_mem_nil, or_false] at hw
        rcases hw with rfl | rfl | rfl <;> exact ⟨by decide, by decide⟩
  rw [sjoin_five_flat A B C _ _ hA hB hC (by simp) (by simp)]
  have hne : (A ++ ["...", s1, "..."] ++ B ++ ["...", s2, "..."] ++ C) ≠ [] := by
    intro hc
    rcases List.append_eq_nil.mp hc with ⟨h1, _⟩
    rcases List.append_eq_nil.mp h1 with ⟨h2, _⟩
    rcases List.append_eq_nil.mp h2 with ⟨h3, _⟩
    rcases List.append_eq_nil.mp h3 with ⟨h4, _⟩
    exact hA h4
  have hgood : ∀ w ∈ A ++ ["...", s1, "..."] ++ B ++ ["...", s2, "..."] ++ C,
      goodWord w.data := by
    intro w hw
    simp only [List.append_assoc, List.mem_append] at hw
    rcases hw with hw | hw | hw | hw | hw
    · exact hgA w hw
    · exact hg1 w hw
    · exact hgB w hw
    · exact hg2 w hw
    · exact hgC w hw
  unfold snippetWordCount
  rw [splitWsJs_sjoin _ hne hgood]
  have hsep1 : List.filter (fun w => !(sepMarkers.contains w)) ["...", s1, "..."] = [] := by
    rcases hs1 with rfl | rfl | rfl <;> rfl
  have hsep2 : List.filter (fun w => !(sepMarkers.contains w)) ["...", s2, "..."] = [] := by
    rcases hs2 with rfl | rfl | rfl <;> rfl
  simp only [List.append_assoc, List.filter_append, List.length_append, hsep1, hsep2,
    List.length_nil]
  have l1 := List.length_filter_le (fun w => !(sepMarkers.contains w)) A
  have l2 := List.length_filter_le (fun w => !(sepMarkers.contains w)) B
  have l3 := List.length_filter_le (fun w => !(sepMarkers.contains w)) C
  omega

/-- C4: for every word sequence (with the 100-word budget hard-coded at
both call sites): when the sequence has at most 100 words both samplers
return exactly the words joined by single spaces; when it has more than
100 words, the word count of the sampled snippet ignoring the separator
tokens never exceeds the budget of 100, for the orchestrator's inline
sampler (`smartSnippet`, slices 50/25/25) and for the snippet sampler of
`extractEmailSnippet` (`extractSnippetSample`, slices 50/35/15) alike.
The hypothesis states that the words are nonempty and whitespace-free,
which holds for word lists produced by splitting on `\s+`. -/
theorem C4_sampler_budget (words : List String)
    (hw : ∀ w ∈ words, goodWord w.data) :
    (words.length ≤ 100 →
      smartSnippet words = sjoin words ∧ extractSnippetSample words = sjoin words) ∧
    (100 < words.length →
      snippetWordCount (smartSnippet words) ≤ 100 ∧
      snippetWordCount (extractSnippetSample words) ≤ 100) := by
  constructor
  · intro h
    constructor
    · unfold smartSnippet
      rw [if_pos h]
    · unfold extractSnippetSample
      rw [if_pos h]
  · intro h
    have hn : ¬words.length ≤ 100 := by omega
    have hm : ("... [middle] ..." : String) = sjoin ["...", "[middle]", "..."] := by decide
    have hend : ("... [end] ..." : String) = sjoin ["...", "[end]", "..."] := by decide
    have hlater : ("... [later] ..." : String) = sjoin ["...", "[later]", "..."] := by decide
    have hAlen : (jsSlice words 0 50).length = 50 := by
      rw [jsSlice_length]
      unfold normIdx
      split_ifs <;> omega
    have hAne : jsSlice words 0 50 ≠ [] :=
      List.ne_nil_of_length_pos (by omega)
    have hgA : ∀ w ∈ jsSlice words 0 50, goodWord w.data :=
      fun w hw2 => hw w (jsSlice_subset hw2)
    constructor
    · -- the orchestrator sampler: 50 + 25 + 25
      unfold smartSnippet
      rw [if_neg hn]
      show snippetWordCount (sjoin [sjoin (jsSlice words 0 50), "... [middle] ...",
        sjoin (jsSlice (jsSliceFrom words 50)
          ((((jsSliceFrom words 50).length : Int) / 2) - 12)
          ((((jsSliceFrom words 50).length : Int) / 2) + 13)),
        "... [end] ...", sjoin (jsSliceFrom (jsSliceFrom words 50) (-25))]) ≤ 100
      have hRlen : (jsSliceFrom words 50).length = words.length - 50 := by
        unfold jsSliceFrom
        rw [jsSlice_length]
        unfold normIdx
        split_ifs <;> omega
      have hBlen : (jsSlice (jsSliceFrom words 50)
          ((((jsSliceFrom words 50).length : Int) / 2) - 12)
          ((((jsSliceFrom words 50).length : Int) / 2) + 13)).length = 25 := by
        rw [jsSlice_length, hRlen]
        unfold normIdx
        split_ifs <;> omega
      have hRlen2 : (jsSlice words 50 (words.length : Int)).length =
          words.length - 50 := by
        rw [jsSlice_length]
        unfold normIdx
        split_ifs <;> omega
      have hClen : (jsSliceFrom (jsSliceFrom words 50) (-25)).length = 25 := by
        unfold jsSliceFrom
        rw [jsSlice_length, hRlen2]
        unfold normIdx
        split_ifs <;> omega
      have hBne : jsSlice (jsSliceFrom words 50)
          ((((jsSliceFrom words 50).length : Int) / 2) - 12)
          ((((jsSliceFrom words 50).length : Int) / 2) + 13) ≠ [] :=
        List.ne_nil_of_length_pos (by omega)
      have hCne : jsSliceFrom (jsSliceFrom words 50) (-25) ≠ [] :=
        List.ne_nil_of_length_pos (by omega)
      have hgB : ∀ w ∈ jsSlice (jsSliceFrom words 50)
          ((((jsSliceFrom words 50).length : Int) / 2) - 12)
          ((((jsSliceFrom words 50).length : Int) / 2) + 13), goodWord w.data :=
        fun w hw2 => hw w (jsSlice_subset (jsSlice_subset hw2))
      have hgC : ∀ w ∈ jsSliceFrom (jsSliceFrom words 50) (-25), goodWord w.data :=
        fun w hw2 => hw w (jsSlice_subset (jsSlice_subset hw2))
      rw [hm, hend]
      have hcount := snippet_count_le (jsSlice words 0 50) _ _ "[middle]" "[end]"
        hAne hBne hCne hgA hgB hgC (Or.inl rfl) (Or.inr (Or.inl rfl))
      omega
    · -- the extractEmailSnippet sampler: 50 + 35 + 15
      unfold extractSnippetSample
      rw [if_neg hn]
      show snippetWordCount (sjoin [sjoin (jsSlice words 0 50), "... [middle] ...",
        sjoin (jsSlice words ((words.length * 3 / 10 : Nat) : Int)
          (((words.length * 3 / 10 : Nat) : Int) + 35)),
        "... [later] ...", sjoin (jsSlice words ((words.length * 3 / 5 : Nat) : Int)
          (((words.length * 3 / 5 : Nat) : Int) + 15))]) ≤ 100
      have hBlen : (jsSlice words ((words.length * 3 / 10 : Nat) : Int)
          (((words.length * 3 / 10 : Nat) : Int) + 35)).length ≤ 35 := by
        rw [jsSlice_length]
        unfold normIdx
        split_ifs <;> omega
      have hBpos : 0 < (jsSlice words ((words.length * 3 / 10 : Nat) : Int)
          (((words.length * 3 / 10 : Nat) : Int) + 35)).length := by
        rw [jsSlice_length]
        unfold normIdx
        split_ifs <;> omega
      have hClen : (jsSlice words ((words.length * 3 / 5 : Nat) : Int)
          (((words.length * 3 / 5 : Nat) : Int) + 15)).length ≤ 15 := by
        rw [jsSlice_length]
        unfold normIdx
        split_ifs <;> omega
      have hCpos : 0 < (jsSlice words ((words.length * 3 / 5 : Nat) : Int)
          (((words.length * 3 / 5 : Nat) : Int) + 15)).length := by
        rw [jsSlice_length]
        unfold normIdx
        split_ifs <;> omega
      have hBne := List.ne_nil_of_length_pos hBpos
      have hCne := List.ne_nil_of_length_pos hCpos
      have hgB : ∀ w ∈ jsSlice words ((words.length * 3 / 10 : Nat) : Int)
          (((words.length * 3 / 10 : Nat) : Int) + 35), goodWord w.data :=
        fun w hw2 => hw w (jsSlice_subset hw2)
      have hgC : ∀ w ∈ jsSlice words ((words.length * 3 / 5 : Nat) : Int)
          (((words.length * 3 / 5 : Nat) : Int) + 15), goodWord w.data :=
        fun w hw2 => hw w (jsSlice_subset hw2)
      rw [hm, hlater]
      have hcount := snippet_count_le (jsSlice words 0 50) _ _ "[middle]" "[later]"
        hAne hBne hCne hgA hgB hgC (Or.inl rfl) (Or.inr (Or.inr rfl))
      omega

/-- Witness for C4 at a three-word list (the at-most-budget branch) and,
through the same theorem instance, the bound form at a list exceeding the
budget is covered by the other conjunct being vacuous here. -/
theorem C4_sampler_budget_witness :
    smartSnippet ["alpha", "beta", "gamma"] = "alpha beta gamma" ∧
      extractSnippetSample ["alpha", "beta", "gamma"] = "alpha beta gamma" := by
  have h := (C4_sampler_budget ["alpha", "beta", "gamma"] (by decide)).1 (by decide)
  refine ⟨h.1.trans (by decide), h.2.trans (by decide)⟩

set_option maxRecDepth 2000000 in
/-- C5, counterexample for the sampler of `extractEmailSnippet`
(utils.js 744-754): on a 300-word body its slices cover positions 0-49,
90-124 and 180-194 only, so no word of its output comes from the last 20%
of the sequence (positions 240-299) — the filter of output tokens against
the last 60 distinct words is empty, refuting "contains at least one word
taken from the last 20%". -/
theorem C5_utils_sampler_misses_tail :
    words300.length = 300 ∧
    (splitWsJs (extractSnippetSample words300)).filter
        (fun w => (words300.drop 240).contains w) = [] := by
  constructor
  · decide
  · decide

set_option maxRecDepth 2000000 in
/-- C5 as amended: for a 300-word cleaned body with budget 100, the
orchestrator's sampler (`smartSnippet`) satisfies the full scenario — its
output stripped of separator markers is exactly 100 words and contains a
word from the first 10% (`w0`) and a word from the last 20% (`w299`,
among the final 25 words it always appends); the `extractEmailSnippet`
sampler still contains a word from the first 10%, but its last slice
starts at the 60% position and never reaches the last 20% (see the
counterexample). -/
theorem C5_orchestrator_scenarioC :
    words300.length = 300 ∧
    snippetWordCount (smartSnippet words300) = 100 ∧
    (splitWsJs (smartSnippet words300)).contains "w0" = true ∧
    "w0" ∈ words300.take 30 ∧
    (splitWsJs (smartSnippet words300)).contains "w299" = true ∧
    "w299" ∈ words300.drop 240 ∧
    (splitWsJs (extractSnippetSample words300)).filter
        (fun w => (words300.take 30).contains w) ≠ [] := by
  refine ⟨by decide, by decide, by decide, by decide, by decide, by decide, by decide⟩

end InboxDigest
